import Mathlib

/-!
Verification development for the AI_CAM_SETUP tracking core.

This file gives a shallow embedding of the centroid tracker
(`src/tracking.py`: `CentroidTracker`, `MultiObjectTracker`) and of the
event/highlight logic (`src/enhanced_football_tracker.py`:
`FootballEventDetector`, `HighlightGenerator`), and proves properties of
the embedded definitions.

Modelling conventions:
* Python `dict` / `OrderedDict` values are association lists
  (`List (κ × α)`) with insertion-ordered keys; assignment to an
  existing key replaces in place, assignment to a fresh key appends,
  which matches CPython semantics.
* Pixel coordinates are `Int`, times and fractional centers are `ℚ`.
* Floating-point Euclidean distances are compared only against other
  distances or nonnegative thresholds in the source, so every comparison
  is modelled on squared distances (`sqrt` is strictly monotone on
  nonnegative reals, hence `sqrt a < sqrt b ↔ a < b` and
  `sqrt a > c ↔ a > c^2` for `c ≥ 0`).
* Fallible dictionary/list accesses that the Python code can actually
  reach (`KeyError` on a malformed detection, `IndexError` in the
  unmatched-object pass) are modelled with `Except Unit`; accesses that
  are guarded by a tracker invariant (objects/disappeared/trails always
  share the same key set) are modelled with `Option.getD` defaults and
  commented at the use site.
-/

namespace AICam

/-- Lookup in an insertion-ordered association list (Python `d[k]` /
`d.get(k)`). -/
def odGet {κ α : Type} [DecidableEq κ] : List (κ × α) → κ → Option α
  | [], _ => none
  | e :: rest, key => if e.1 = key then some e.2 else odGet rest key

/-- Membership test (Python `k in d`). -/
def odHas {κ α : Type} [DecidableEq κ] (l : List (κ × α)) (key : κ) : Bool :=
  (odGet l key).isSome

/-- Assignment `d[k] = v`: replaces in place when the key exists,
appends otherwise (CPython insertion-order semantics). -/
def odSet {κ α : Type} [DecidableEq κ] (l : List (κ × α)) (key : κ) (v : α) :
    List (κ × α) :=
  if odHas l key then l.map (fun e => if e.1 = key then (key, v) else e)
  else l ++ [(key, v)]

/-- Deletion `del d[k]`. -/
def odDel {κ α : Type} [DecidableEq κ] (l : List (κ × α)) (key : κ) :
    List (κ × α) :=
  l.filter (fun e => e.1 ≠ key)

/-- Key list in insertion order (Python `list(d.keys())`). -/
def odKeys {κ α : Type} (l : List (κ × α)) : List κ :=
  l.map Prod.fst

/-- A pixel point. -/
abbrev Pt := Int × Int

/-- Squared Euclidean distance between two integer points. -/
def distSq (p q : Pt) : Int :=
  (p.1 - q.1) ^ 2 + (p.2 - q.2) ^ 2

/-- A detection dictionary as produced by `detection.py`: the `center`
key may be absent (`Option`), which `CentroidTracker.update` reads
unconditionally. -/
structure RawDetection where
  center : Option Pt
  bbox : List Int
  class_name : String
  confidence : ℚ
  area : Int
deriving Repr, DecidableEq

/-- A detection whose `center` has been read successfully
(`cx, cy = detection["center"]` did not raise). -/
structure Detection where
  center : Pt
  bbox : List Int
  class_name : String
  confidence : ℚ
  area : Int
deriving Repr, DecidableEq

instance : Inhabited Detection :=
  ⟨⟨(0, 0), [], "", 0, 0⟩⟩

/-- Reading `detection["center"]` (`KeyError` when the key is missing). -/
def extractDetection (d : RawDetection) : Except Unit Detection :=
  match d.center with
  | some c => .ok ⟨c, d.bbox, d.class_name, d.confidence, d.area⟩
  | none => .error ()

/-- The `for detection in detections` loop building `input_centroids`
and `detection_info`: reads every center in order and raises at the
first malformed detection. -/
def extractAll : List RawDetection → Except Unit (List Detection)
  | [] => .ok []
  | d :: rest =>
    match extractDetection d with
    | .error e => .error e
    | .ok x =>
      match extractAll rest with
      | .error e => .error e
      | .ok xs => .ok (x :: xs)

/-- The per-object record stored in `CentroidTracker.objects`. -/
structure TrackedObject where
  centroid : Pt
  bbox : List Int
  class_name : String
  confidence : ℚ
  area : Int
deriving Repr, DecidableEq

/-- Constructor parameters of `CentroidTracker`. -/
structure CTParams where
  max_disappeared : Nat
  max_distance : Nat
  trail_length : Nat
deriving Repr, DecidableEq

/-- Mutable state of a `CentroidTracker`: `objects`, `disappeared` and
`trails` are parallel ordered dicts sharing one key set, plus the
monotone id counter. -/
structure TrackState where
  next_object_id : Nat
  objects : List (Nat × TrackedObject)
  disappeared : List (Nat × Nat)
  trails : List (Nat × List Pt)
deriving Repr, DecidableEq

/-- Appending to a `deque(maxlen = n)`: the oldest entry is dropped once
the ring is full. -/
def dequeAppend (maxlen : Nat) (l : List Pt) (x : Pt) : List Pt :=
  let l2 := l ++ [x]
  l2.drop (l2.length - maxlen)

/-- Appending to the `deque(maxlen=30)` count history of
`MultiObjectTracker`. -/
def histAppend (l : List Nat) (x : Nat) : List Nat :=
  let l2 := l ++ [x]
  l2.drop (l2.length - 30)

/-- `CentroidTracker.register`: create a new object under a fresh id. -/
def register (p : CTParams) (s : TrackState) (centroid : Pt) (info : Detection) :
    TrackState :=
  { next_object_id := s.next_object_id + 1
    objects := odSet s.objects s.next_object_id
      ⟨centroid, info.bbox, info.class_name, info.confidence, info.area⟩
    disappeared := odSet s.disappeared s.next_object_id 0
    trails := odSet s.trails s.next_object_id
      (dequeAppend p.trail_length [] centroid) }

/-- `CentroidTracker.deregister`: drop an object from all three dicts. -/
def deregister (s : TrackState) (objectId : Nat) : TrackState :=
  { s with
    objects := odDel s.objects objectId
    disappeared := odDel s.disappeared objectId
    trails := odDel s.trails objectId }

/-- The empty-detections path of `update`: every object's `disappeared`
is incremented over a snapshot of the key list, deregistering past the
threshold. The `disappeared` entry exists for every object key by the
shared-key-set invariant; `getD 0` models that in-sync lookup. -/
def ageAll (p : CTParams) (s : TrackState) : TrackState :=
  (odKeys s.disappeared).foldl
    (fun st objectId =>
      let d := (odGet st.disappeared objectId).getD 0 + 1
      let st := { st with disappeared := odSet st.disappeared objectId d }
      if d > p.max_disappeared then deregister st objectId else st)
    s

/-- Squared distances from object row `r` to every input centroid (one
row of the scipy `cdist` matrix, squared). Rows and columns are always
in range at use sites. -/
def rowDists (objCents inCents : List Pt) (r : Nat) : List Int :=
  inCents.map (fun c => distSq (objCents.getD r (0, 0)) c)

/-- `D.min(axis=1)` for row `r` (squared). `inCents` is nonempty on
every use site; the `[]` case is unreachable. -/
def rowMin (objCents inCents : List Pt) (r : Nat) : Int :=
  match rowDists objCents inCents r with
  | [] => 0
  | x :: xs => xs.foldl min x

/-- `D.argmin(axis=1)` for row `r`: index of the first minimal entry,
matching numpy argmin tie-breaking. -/
def rowArgmin (objCents inCents : List Pt) (r : Nat) : Nat :=
  let ds := rowDists objCents inCents r
  (List.range ds.length).foldl
    (fun best c => if ds.getD c 0 < ds.getD best 0 then c else best) 0

/-- Stable insertion by key (used to model `argsort`; numpy leaves the
order of tied keys unspecified, and this embedding fixes ties to
original row order). -/
def insertByKey (key : Nat → Int) (x : Nat) : List Nat → List Nat
  | [] => [x]
  | y :: ys => if key y < key x then y :: insertByKey key x ys else x :: y :: ys

/-- Sorting by key, stable on ties. -/
def sortByKey (key : Nat → Int) : List Nat → List Nat
  | [] => []
  | x :: xs => insertByKey key x (sortByKey key xs)

/-- `rows = D.min(axis=1).argsort()`: object rows ordered by their
closest-input distance. -/
def argsortRows (objCents inCents : List Pt) : List Nat :=
  sortByKey (rowMin objCents inCents) (List.range objCents.length)

/-- Accumulator of the greedy matching loop: used row/column index sets
and the evolving tracker state. -/
structure GreedyRes where
  usedRows : List Nat
  usedCols : List Nat
  state : TrackState
deriving Repr

/-- One iteration of `for row, col in zip(rows, cols)`. The object key
lookup `list(self.objects.keys())[row]` is in range here because rows
come from `range(D.shape[0])` and this loop never deregisters; the
trail lookup is in sync by the shared-key-set invariant. -/
def greedyStep (p : CTParams) (objCents inCents : List Pt)
    (dets : List Detection) (acc : GreedyRes) (rc : Nat × Nat) : GreedyRes :=
  if acc.usedRows.contains rc.1 || acc.usedCols.contains rc.2 then acc
  else if distSq (objCents.getD rc.1 (0, 0)) (inCents.getD rc.2 (0, 0)) >
      (p.max_distance : Int) ^ 2 then acc
  else
    let objectId := (odKeys acc.state.objects).getD rc.1 0
    let cent := inCents.getD rc.2 (0, 0)
    let d := dets.getD rc.2 default
    { usedRows := acc.usedRows ++ [rc.1]
      usedCols := acc.usedCols ++ [rc.2]
      state := { acc.state with
        objects := odSet acc.state.objects objectId
          ⟨cent, d.bbox, d.class_name, d.confidence, d.area⟩
        disappeared := odSet acc.state.disappeared objectId 0
        trails := odSet acc.state.trails objectId
          (dequeAppend p.trail_length
            ((odGet acc.state.trails objectId).getD []) cent) } }

/-- The whole greedy matching loop as a fold over the `(row, col)`
pairs. -/
def greedyFold (p : CTParams) (objCents inCents : List Pt)
    (dets : List Detection) (pairs : List (Nat × Nat)) (acc : GreedyRes) :
    GreedyRes :=
  pairs.foldl (greedyStep p objCents inCents dets) acc

/-- The greedy matching phase of `update` on a nonempty object set:
rows sorted by row minimum, each paired with its argmin column. -/
def greedyResult (p : CTParams) (s : TrackState) (dets : List Detection) :
    GreedyRes :=
  let inCents := dets.map Detection.center
  let objCents := (s.objects.map Prod.snd).map TrackedObject.centroid
  let rows := argsortRows objCents inCents
  let cols := rows.map (rowArgmin objCents inCents)
  greedyFold p objCents inCents dets (rows.zip cols) ⟨[], [], s⟩

/-- `unused_row_indices` in ascending order (CPython iterates a set of
small nonnegative ints ascending). -/
def unmatchedRows (p : CTParams) (s : TrackState) (dets : List Detection) :
    List Nat :=
  (List.range s.objects.length).filter
    (fun r => !(greedyResult p s dets).usedRows.contains r)

/-- `unused_col_indices` in ascending order. -/
def unmatchedCols (p : CTParams) (s : TrackState) (dets : List Detection) :
    List Nat :=
  (List.range dets.length).filter
    (fun c => !(greedyResult p s dets).usedCols.contains c)

/-- The unmatched-object pass (taken when `D.shape[0] >= D.shape[1]`):
`object_id = list(self.objects.keys())[row]` is re-read from the live
dict each iteration, so a deregistration shifts later indices and can
run out of range (`IndexError`, modelled as `.error`). -/
def agePass (p : CTParams) : List Nat → TrackState → Except Unit TrackState
  | [], st => .ok st
  | row :: rest, st =>
    match (odKeys st.objects)[row]? with
    | none => .error ()
    | some objectId =>
      let d := (odGet st.disappeared objectId).getD 0 + 1
      let st2 := { st with disappeared := odSet st.disappeared objectId d }
      if d > p.max_disappeared then agePass p rest (deregister st2 objectId)
      else agePass p rest st2

/-- The unmatched-detection pass (taken when `D.shape[0] < D.shape[1]`):
register every unused column. Columns are in range of `dets`. -/
def registerPass (p : CTParams) (dets : List Detection) (cols : List Nat)
    (st : TrackState) : TrackState :=
  cols.foldl
    (fun st col =>
      let d := dets.getD col default
      register p st d.center d)
    st

/-- `CentroidTracker.update`, line for line: empty-input aging path,
center extraction (fallible), register-all path on an empty object set,
otherwise greedy matching followed by either the aging pass or the
registration pass depending on the matrix shape. -/
def ctUpdate (p : CTParams) (s : TrackState) (detections : List RawDetection) :
    Except Unit TrackState :=
  if detections.isEmpty then .ok (ageAll p s)
  else
    match extractAll detections with
    | .error e => .error e
    | .ok dets =>
      if s.objects.isEmpty then
        .ok (dets.foldl (fun st d => register p st d.center d) s)
      else
        let g := greedyResult p s dets
        if dets.length ≤ s.objects.length then
          agePass p (unmatchedRows p s dets) g.state
        else
          .ok (registerPass p dets (unmatchedCols p s dets) g.state)

/-- The category table of `config.py` (`OBJECT_CATEGORIES.keys()`), in
dict insertion order. -/
def objectCategories : List String :=
  ["people", "vehicles", "animals", "sports", "electronics", "furniture",
   "food", "other"]

/-- Per-category `CentroidTracker` construction parameters chosen in
`MultiObjectTracker.__init__`; `trail_length` is always
`TRACKING["trail_length"] = 10`. -/
def categoryParams (category : String) : CTParams :=
  if category = "vehicles" then ⟨20, 120, 10⟩
  else if category = "animals" then ⟨15, 100, 10⟩
  else ⟨30, 80, 10⟩

/-- State of a `MultiObjectTracker`: one `CentroidTracker` per category,
frame counter, bounded per-category count history and the last total. -/
structure MultiState where
  trackers : List (String × TrackState)
  frame_count : Nat
  object_count_history : List (String × List Nat)
  total_objects_detected : Nat
deriving Repr, DecidableEq

/-- The fresh tracker state built by `CentroidTracker.__init__`. -/
def ctInit : TrackState :=
  ⟨0, [], [], []⟩

/-- `MultiObjectTracker.__init__`: one fresh tracker and one empty
count history per category. -/
def multiInit : MultiState :=
  { trackers := objectCategories.map (fun c => (c, ctInit))
    frame_count := 0
    object_count_history := objectCategories.map (fun c => (c, []))
    total_objects_detected := 0 }

/-- `MultiObjectTracker.update`: bump the frame counter, then iterate
the input map in order, updating only categories that are present in
the input and known to the tracker; each such update appends one entry
to that category's count history (`deque(maxlen=30)`, modelled by the
shared-key invariant between `trackers` and `object_count_history`).
Returns the new state and the per-category snapshot that the Python
code places under the `"objects"` key of its result. -/
def multiLoop : MultiState → List (String × List (Nat × TrackedObject)) → Nat →
    List (String × List RawDetection) →
    Except Unit (MultiState × List (String × List (Nat × TrackedObject)) × Nat)
  | mc, tr, total, [] => .ok (mc, tr, total)
  | mc, tr, total, cd :: rest =>
    match odGet mc.trackers cd.1 with
    | none => multiLoop mc tr total rest
    | some ts =>
      match ctUpdate (categoryParams cd.1) ts cd.2 with
      | .error e => .error e
      | .ok ts2 =>
        multiLoop
          { mc with
            trackers := odSet mc.trackers cd.1 ts2
            object_count_history := odSet mc.object_count_history cd.1
              (histAppend ((odGet mc.object_count_history cd.1).getD [])
                ts2.objects.length) }
          (odSet tr cd.1 ts2.objects) (total + ts2.objects.length) rest

def multiUpdate (m : MultiState) (input : List (String × List RawDetection)) :
    Except Unit (MultiState × List (String × List (Nat × TrackedObject))) :=
  match multiLoop { m with frame_count := m.frame_count + 1 } [] 0 input with
  | .error e => .error e
  | .ok (m2, tracked, total) =>
    .ok ({ m2 with total_objects_detected := total }, tracked)

/-- An object as seen by `FootballEventDetector`: a dict read with
`.get`, so `bbox` and `track_id` may be absent. The Python `track_id`
value is an int when present. -/
structure FBObject where
  class_name : String
  bbox : Option (List Int)
  track_id : Option Int
deriving Repr, DecidableEq

/-- `obj.get("bbox", [0, 0, 0, 0])`. -/
def bboxOf (o : FBObject) : List Int :=
  o.bbox.getD [0, 0, 0, 0]

/-- A configured goal rectangle. -/
structure GoalArea where
  x1 : Int
  y1 : Int
  x2 : Int
  y2 : Int
deriving Repr, DecidableEq

/-- `FootballEventDetector.define_goal_areas`. -/
def goalAreas : List (String × GoalArea) :=
  [("left_goal", ⟨0, 200, 100, 400⟩), ("right_goal", ⟨540, 200, 640, 400⟩)]

/-- The rectangle membership test of `detect_goal`
(`x1 <= x <= x2 and y1 <= y <= y2`). -/
def inGoalArea (g : GoalArea) (x y : Int) : Bool :=
  decide (g.x1 ≤ x) && decide (x ≤ g.x2) && decide (g.y1 ≤ y) && decide (y ≤ g.y2)

/-- State of a `FootballEventDetector`. `current_possession` is set
lazily via `hasattr`, hence the outer `Option`; its value is a
`track_id`, itself possibly `None`. `last_possession_change` is read
with `getattr(.., 0)`, hence the `getD 0` at the use site. -/
structure FEDState where
  previous_positions : List (Int × ((ℚ × ℚ) × ℚ))
  event_cooldown : List (String × ℚ)
  current_possession : Option (Option Int)
  last_possession_change : Option ℚ
deriving Repr, DecidableEq

/-- `FootballEventDetector.__init__` state. -/
def fedInit : FEDState :=
  ⟨[], [], none, none⟩

/-- A `goal` event record (`type` is always `"goal"`; the fixed 0.8
confidence is `4/5`). -/
structure GoalEvent where
  timestamp : ℚ
  location : String
  confidence : ℚ
  description : String
deriving Repr, DecidableEq

/-- The cooldown key `f"goal_{goal_name}"`. -/
def goalKey (name : String) : String :=
  "goal_" ++ name

/-- Cooldown freshness test used by `detect_goal`:
`key not in cooldown or now - cooldown[key] > 5.0`. -/
def goalCooldownOpen (s : FEDState) (key : String) (t : ℚ) : Bool :=
  match odGet s.event_cooldown key with
  | none => true
  | some t0 => decide (t - t0 > 5)

/-- The `for goal_name, goal_area in self.goal_areas.items()` loop of
`detect_goal`: the first area containing the tested point with an open
cooldown emits and records; an area containing the point with a closed
cooldown falls through to the next area; no area hit returns `None`
with the state untouched. -/
def detectGoalLoop (s : FEDState) (bx byy : Int) (t : ℚ) :
    List (String × GoalArea) → Option GoalEvent × FEDState
  | [] => (none, s)
  | (name, area) :: rest =>
    if inGoalArea area bx byy then
      if goalCooldownOpen s (goalKey name) t then
        (some ⟨t, name, 4 / 5, "Potential goal detected at " ++ name⟩,
          { s with event_cooldown := odSet s.event_cooldown (goalKey name) t })
      else detectGoalLoop s bx byy t rest
    else detectGoalLoop s bx byy t rest

/-- `FootballEventDetector.detect_goal`: the tested point is
`(bbox[0], bbox[1])` of `ball.get("bbox", [0, 0, 0, 0])` — the top-left
corner of the bounding box. -/
def detectGoal (s : FEDState) (ball : FBObject) (t : ℚ) :
    Option GoalEvent × FEDState :=
  detectGoalLoop s ((bboxOf ball).getD 0 0) ((bboxOf ball).getD 1 0) t goalAreas

/-- The `(pos[0] + pos[2]/2, pos[1] + pos[3]/2)` center used by
`detect_fast_movement` and `detect_possession_change` (the code treats
the 4-list as `x, y, w, h`). True division makes it rational. -/
def fbCenter (bb : List Int) : ℚ × ℚ :=
  ((bb.getD 0 0 : ℚ) + (bb.getD 2 0 : ℚ) / 2,
   (bb.getD 1 0 : ℚ) + (bb.getD 3 0 : ℚ) / 2)

/-- Squared distance between rational points. -/
def qDistSq (p q : ℚ × ℚ) : ℚ :=
  (p.1 - q.1) ^ 2 + (p.2 - q.2) ^ 2

/-- A `fast_movement` event. The source stores `speed = dist/dt` and
`confidence = min(speed/100, 1)`; both are real-valued via `sqrt`, so
the embedding records the squared speed (the guard `speed > 50` is
`speedSq > 2500`). -/
structure FastEvent where
  timestamp : ℚ
  player_id : Int
  speedSq : ℚ
deriving Repr, DecidableEq

/-- Cooldown freshness test of `detect_fast_movement` (3 seconds). -/
def fastCooldownOpen (s : FEDState) (key : String) (t : ℚ) : Bool :=
  match odGet s.event_cooldown key with
  | none => true
  | some t0 => decide (t - t0 > 3)

/-- `FootballEventDetector.detect_fast_movement`. A falsy `track_id`
(absent or 0) returns immediately. When an event fires the function
returns before the final `self.previous_positions[player_id] = ...`
assignment, so the history entry keeps its old value on exactly the
event-emitting path. -/
def detectFastMovement (s : FEDState) (player : FBObject) (t : ℚ) :
    Option FastEvent × FEDState :=
  match player.track_id with
  | none => (none, s)
  | some pid =>
    if pid = 0 then (none, s)
    else
      let cc := fbCenter (bboxOf player)
      let recorded :=
        (none, { s with previous_positions := odSet s.previous_positions pid (cc, t) })
      match odGet s.previous_positions pid with
      | none => recorded
      | some (prevPos, prevTime) =>
        let dSq := qDistSq cc prevPos
        let dt := t - prevTime
        if dt > 0 ∧ dSq > 2500 * dt ^ 2 then
          if fastCooldownOpen s ("fast_movement_" ++ toString pid) t then
            (some ⟨t, pid, dSq / dt ^ 2⟩,
              { s with event_cooldown :=
                  odSet s.event_cooldown ("fast_movement_" ++ toString pid) t })
          else recorded
        else recorded

/-- A `possession_change` event. -/
structure PossEvent where
  timestamp : ℚ
  from_player : Option Int
  to_player : Option Int
deriving Repr, DecidableEq

/-- The closest-player scan of `detect_possession_change`: running
minimum with a strict `<`, so the first player wins ties; squared
distances replace the `sqrt` values order-faithfully. -/
def closestPlayer (ballPos : ℚ × ℚ) (players : List FBObject) :
    Option (FBObject × ℚ) :=
  players.foldl
    (fun acc p =>
      let dSq := qDistSq ballPos (fbCenter (bboxOf p))
      match acc with
      | none => some (p, dSq)
      | some (_, best) => if dSq < best then some (p, dSq) else acc)
    none

/-- `FootballEventDetector.detect_possession_change`. The proximity
test `min_distance < 50` is `dSq < 2500`; a nonempty player dict is
always truthy, so the `if closest_player` test is `isSome`. -/
def detectPossessionChange (s : FEDState) (ball : FBObject)
    (players : List FBObject) (t : ℚ) : Option PossEvent × FEDState :=
  match closestPlayer (fbCenter (bboxOf ball)) players with
  | none => (none, s)
  | some (cp, dSq) =>
    if dSq < 2500 then
      match s.current_possession with
      | some cur =>
        if cur ≠ cp.track_id ∧ t - s.last_possession_change.getD 0 > 2 then
          (some ⟨t, cur, cp.track_id⟩,
            { s with
              last_possession_change := some t
              current_possession := some cp.track_id })
        else (none, s)
      | none => (none, { s with current_possession := some cp.track_id })
    else (none, s)

/-- A scored time segment from `HighlightGenerator.score_segments`.
The `data` payload (raw frames) is not consulted by the peak finder and
is omitted. -/
structure Segment where
  start_time : ℚ
  end_time : ℚ
  score : ℚ
deriving Repr, DecidableEq

instance : Inhabited Segment :=
  ⟨⟨0, 0, 0⟩⟩

/-- A highlight candidate produced by `find_peak_moments`. -/
structure Highlight where
  start_time : ℚ
  end_time : ℚ
  score : ℚ
  peak_segment : Segment
deriving Repr, DecidableEq

/-- The local-maximum test of `find_peak_moments`: segment `i` survives
both neighbor loops exactly when its score is strictly above every
available segment among the two before and the two after (the loops
break and clear `is_peak` on any `>=` neighbor). Indices are in range
at use sites. -/
def isLocalPeak (segs : List Segment) (i : Nat) : Bool :=
  ((List.range' (i - 2) (i - (i - 2))).all
    (fun j => decide ((segs.getD j default).score < (segs.getD i default).score))) &&
  ((List.range' (i + 1) (min segs.length (i + 3) - (i + 1))).all
    (fun j => decide ((segs.getD j default).score < (segs.getD i default).score)))

/-- `HighlightGenerator.find_peak_moments`: over every index, keep the
segments above the 0.5 floor that pass the local-maximum test, extend
the window by one segment on each side (clamped to the ends), and keep
the candidate only when the extended span reaches `min_duration`. -/
def findPeakMoments (segs : List Segment) (min_duration : ℚ) : List Highlight :=
  (List.range segs.length).filterMap
    (fun i =>
      if (segs.getD i default).score > 1 / 2 then
        if isLocalPeak segs i then
          if (segs.getD (min (segs.length - 1) (i + 1)) default).end_time -
              (segs.getD (i - 1) default).start_time ≥ min_duration then
            some ⟨(segs.getD (i - 1) default).start_time,
              (segs.getD (min (segs.length - 1) (i + 1)) default).end_time,
              (segs.getD i default).score, segs.getD i default⟩
          else none
        else none
      else none)

/-! Concrete instances used by counterexamples and witnesses. -/

/-- Tracker parameters of the default (`other`) category branch. -/
def exParams : CTParams :=
  ⟨30, 80, 10⟩

/-- A tracked object with a given centroid. -/
def exObj (c : Pt) : TrackedObject :=
  ⟨c, [c.1 - 2, c.2 - 2, c.1 + 2, c.2 + 2], "person", 1 / 2, 16⟩

/-- A well-formed raw detection centered at `c`. -/
def exRaw (c : Pt) : RawDetection :=
  ⟨some c, [c.1 - 2, c.2 - 2, c.1 + 2, c.2 + 2], "person", 1 / 2, 16⟩

/-- The same detection after center extraction. -/
def exDet (c : Pt) : Detection :=
  ⟨c, [c.1 - 2, c.2 - 2, c.1 + 2, c.2 + 2], "person", 1 / 2, 16⟩

/-- A raw detection whose `center` key is missing. -/
def exBadRaw : RawDetection :=
  ⟨none, [0, 0, 4, 4], "person", 1 / 2, 16⟩

/-- A tracker state holding one object at the origin. -/
def exState1 : TrackState :=
  ⟨1, [(0, exObj (0, 0))], [(0, 0)], [(0, [((0 : Int), (0 : Int))])]⟩

/-- A tracker state holding two objects, at the origin and at
`(100, 0)`. -/
def exState2 : TrackState :=
  ⟨2, [(0, exObj (0, 0)), (1, exObj (100, 0))], [(0, 0), (1, 0)],
    [(0, [((0 : Int), (0 : Int))]), (1, [((100 : Int), (0 : Int))])]⟩

/-- A ball whose bounding-box centroid `(100, 225)` lies inside
`left_goal` while its top-left corner `(50, 100)` lies in no goal
area. -/
def exBallCentroidIn : FBObject :=
  ⟨"sports ball", some [50, 100, 150, 350], none⟩

/-- A ball whose top-left corner `(50, 300)` lies inside `left_goal`. -/
def exBallCornerIn : FBObject :=
  ⟨"sports ball", some [50, 300, 60, 310], none⟩

/-- Event-detector state with one recorded position for player 1. -/
def exFED5 : FEDState :=
  ⟨[(1, ((0, 0), 0))], [], none, none⟩

/-- A player whose code-computed center is `(100, 0)`. -/
def exPlayer5 : FBObject :=
  ⟨"person", some [100, 0, 0, 0], some 1⟩

/-- The same player with the falsy track id 0. -/
def exPlayer0 : FBObject :=
  ⟨"person", some [100, 0, 0, 0], some 0⟩

/-- Event-detector state with possession held by player 7 and a
possession change recorded at time 10. -/
def exFED10 : FEDState :=
  ⟨[], [], some (some 7), some 10⟩

/-- A ball at the origin for the possession scenario. -/
def exBall10 : FBObject :=
  ⟨"sports ball", some [0, 0, 0, 0], none⟩

/-- A player 10 pixels from `exBall10`, distinct from possessor 7. -/
def exPlayer10 : FBObject :=
  ⟨"person", some [10, 0, 0, 0], some 3⟩

/-- Segment list with local maxima at indices 1 and 3 (only index 3
survives the strictness test). -/
def exSegs : List Segment :=
  [⟨0, 5, 0⟩, ⟨5, 10, 1⟩, ⟨10, 15, 0⟩, ⟨15, 20, 2⟩, ⟨20, 25, 0⟩]

/-- The point `detect_goal` actually tests: `bbox[0], bbox[1]`, the
top-left corner of the ball's bounding box. -/
def goalTestPoint (ball : FBObject) : Pt :=
  ((bboxOf ball).getD 0 0, (bboxOf ball).getD 1 0)

/-- Modelled from the spec glossary (not from the source): the
geometric center `((x1+x2)/2, (y1+y2)/2)` of a bounding box, used only
to compare the code's goal test against the claimed one. -/
def specCentroid (bb : List Int) : ℚ × ℚ :=
  (((bb.getD 0 0 : ℚ) + (bb.getD 2 0 : ℚ)) / 2,
   ((bb.getD 1 0 : ℚ) + (bb.getD 3 0 : ℚ)) / 2)

/-- Rectangle membership for rational points, used to state where the
spec-side centroid lies. -/
def inGoalAreaQ (g : GoalArea) (p : ℚ × ℚ) : Bool :=
  decide ((g.x1 : ℚ) ≤ p.1) && decide (p.1 ≤ (g.x2 : ℚ)) &&
    decide ((g.y1 : ℚ) ≤ p.2) && decide (p.2 ≤ (g.y2 : ℚ))

/-! Ordered-dict lemmas shared by the claim proofs. -/

theorem odGet_nil {κ α : Type} [DecidableEq κ] (k : κ) :
    odGet ([] : List (κ × α)) k = none := rfl

theorem odGet_cons {κ α : Type} [DecidableEq κ] (e : κ × α) (l : List (κ × α))
    (k : κ) : odGet (e :: l) k = if e.1 = k then some e.2 else odGet l k := rfl

theorem odGet_append_ne {κ α : Type} [DecidableEq κ] (l : List (κ × α))
    (k q : κ) (v : α) (h : q ≠ k) : odGet (l ++ [(k, v)]) q = odGet l q := by
  induction l with
  | nil =>
    have : k ≠ q := fun hc => h hc.symm
    simp [odGet_nil, odGet_cons, this]
  | cons e rest ih =>
    by_cases hq : e.1 = q
    · simp [odGet_cons, hq]
    · simp [odGet_cons, hq, ih]

theorem odGet_map_replace {κ α : Type} [DecidableEq κ] (l : List (κ × α))
    (k : κ) (v : α) (hk : odHas l k = true) :
    odGet (l.map (fun e => if e.1 = k then (k, v) else e)) k = some v := by
  induction l with
  | nil => simp [odHas, odGet_nil] at hk
  | cons e rest ih =>
    by_cases he : e.1 = k
    · simp [List.map_cons, if_pos he, odGet_cons]
    · have hk2 : odHas rest k = true := by
        simpa [odHas, odGet_cons, if_neg he] using hk
      simp only [List.map_cons, if_neg he, odGet_cons, if_neg he]
      exact ih hk2

theorem odGet_map_replace_ne {κ α : Type} [DecidableEq κ] (l : List (κ × α))
    (k q : κ) (v : α) (h : q ≠ k) :
    odGet (l.map (fun e => if e.1 = k then (k, v) else e)) q = odGet l q := by
  induction l with
  | nil => simp
  | cons e rest ih =>
    by_cases he : e.1 = k
    · have h1 : k ≠ q := fun hc => h hc.symm
      have h2 : e.1 ≠ q := by rw [he]; exact h1
      simp only [List.map_cons, if_pos he, odGet_cons, if_neg h1, if_neg h2]
      exact ih
    · by_cases hq : e.1 = q
      · simp only [List.map_cons, if_neg he, odGet_cons, if_pos hq]
      · simp only [List.map_cons, if_neg he, odGet_cons, if_neg hq]
        exact ih

theorem odGet_append_self {κ α : Type} [DecidableEq κ] (l : List (κ × α))
    (k : κ) (v : α) (hk : odHas l k = false) :
    odGet (l ++ [(k, v)]) k = some v := by
  induction l with
  | nil => simp [odGet_cons]
  | cons e rest ih =>
    by_cases he : e.1 = k
    · simp [odHas, odGet_cons, he] at hk
    · have hk2 : odHas rest k = false := by
        simpa [odHas, odGet_cons, he] using hk
      simpa [odGet_cons, he] using ih hk2

theorem odGet_odSet_self {κ α : Type} [DecidableEq κ] (l : List (κ × α))
    (k : κ) (v : α) : odGet (odSet l k v) k = some v := by
  unfold odSet
  by_cases hk : odHas l k = true
  · rw [if_pos hk]
    exact odGet_map_replace l k v hk
  · rw [if_neg hk]
    exact odGet_append_self l k v (by simpa using hk)

theorem odGet_odSet_ne {κ α : Type} [DecidableEq κ] (l : List (κ × α))
    (k q : κ) (v : α) (h : q ≠ k) : odGet (odSet l k v) q = odGet l q := by
  unfold odSet
  by_cases hk : odHas l k = true
  · rw [if_pos hk]
    exact odGet_map_replace_ne l k q v h
  · rw [if_neg hk]
    exact odGet_append_ne l k q v h

theorem odKeys_odSet_of_has {κ α : Type} [DecidableEq κ] (l : List (κ × α))
    (k : κ) (v : α) (hk : odHas l k = true) :
    odKeys (odSet l k v) = odKeys l := by
  unfold odSet odKeys
  rw [if_pos hk, List.map_map]
  congr 1
  funext e
  by_cases he : e.1 = k <;> simp [he]

theorem odHas_iff_mem_keys {κ α : Type} [DecidableEq κ] (l : List (κ × α))
    (k : κ) : odHas l k = true ↔ k ∈ odKeys l := by
  induction l with
  | nil => simp [odHas, odGet_nil, odKeys]
  | cons e rest ih =>
    by_cases he : e.1 = k
    · simp [odHas, odGet_cons, he, odKeys]
    · have : odHas (e :: rest) k = odHas rest k := by
        simp [odHas, odGet_cons, he]
      rw [this, ih]
      unfold odKeys
      rw [List.map_cons, List.mem_cons]
      constructor
      · exact Or.inr
      · rintro (h2 | h2)
        · exact absurd h2.symm he
        · exact h2

/-- Claim C1, counterexample: one tracked object at the origin, two
detections both farther than `max_distance`, so the object is unmatched
(`unmatchedRows = [0]` and its centroid is untouched), yet its
`disappeared` count stays 0 instead of being incremented — the aging
pass is skipped because detections outnumber objects. -/
theorem C1_counterexample :
    unmatchedRows exParams exState1 [exDet (1000, 0), exDet (2000, 0)] = [0] ∧
    (ctUpdate exParams exState1 [exRaw (1000, 0), exRaw (2000, 0)]).map
        (fun t => (odGet t.disappeared 0,
          (odGet t.objects 0).map TrackedObject.centroid)) =
      .ok (some 0, some (0, 0)) :=
  ⟨rfl, rfl⟩

/-- Claim C2, counterexample: one tracked object at the origin and one
detection rejected by the distance gate (`unmatchedCols = [0]`); the
detection is not registered — object count and `next_object_id` are
unchanged — because objects do not outnumber detections. -/
theorem C2_counterexample :
    unmatchedCols exParams exState1 [exDet (1000, 0)] = [0] ∧
    (ctUpdate exParams exState1 [exRaw (1000, 0)]).map
        (fun t => (t.objects.length, t.next_object_id)) =
      .ok (1, 1) :=
  ⟨rfl, rfl⟩

/-- Claim C3, counterexample: after registering one person, an update
whose input map lacks the `people` key leaves the people tracker
completely untouched — the object's `disappeared` count stays 0 instead
of aging, and the people count history still has a single entry instead
of one per call. -/
theorem C3_counterexample :
    (multiUpdate multiInit [("people", [exRaw (10, 10)])]).map (fun r =>
        (multiUpdate r.1 [("vehicles", ([] : List RawDetection))]).map (fun r2 =>
          ((odGet r2.1.trackers "people").map (fun ts => odGet ts.disappeared 0),
            (odGet r2.1.object_count_history "people").map List.length))) =
      .ok (.ok (some (some 0), some 1)) :=
  rfl

/-- Claim C4, counterexample: a ball whose bounding-box centroid
`(100, 225)` lies inside the first configured goal area while every
cooldown is open, yet `detect_goal` emits nothing, because the code
tests the top-left corner `(50, 100)` instead of the centroid. -/
theorem C4_counterexample :
    goalAreas.map (fun ga => inGoalAreaQ ga.2 (specCentroid (bboxOf exBallCentroidIn))) =
      [true, false] ∧
    detectGoal fedInit exBallCentroidIn 0 = (none, fedInit) :=
  ⟨by norm_num [goalAreas, inGoalAreaQ, specCentroid, bboxOf, exBallCentroidIn], rfl⟩

/-- Claim C5, counterexample: player 1 moves 100 px in 1 s, the
`fast_movement` event fires, and `previous_positions[1]` keeps its old
value `((0,0), 0)` instead of the current `((100,0), 1)` — the update
is skipped on the event-emitting path. -/
theorem C5_counterexample :
    ((detectFastMovement exFED5 exPlayer5 1).1).isSome = true ∧
    odGet (detectFastMovement exFED5 exPlayer5 1).2.previous_positions 1 =
      some ((0, 0), 0) ∧
    (fbCenter (bboxOf exPlayer5), (1 : ℚ)) ≠ ((((0 : ℚ), (0 : ℚ)), (0 : ℚ))) := by
  have hcond : (1 : ℚ) - 0 > 0 ∧
      qDistSq (fbCenter (bboxOf exPlayer5)) ((0 : ℚ), (0 : ℚ)) >
        2500 * ((1 : ℚ) - 0) ^ 2 := by
    constructor
    · norm_num
    · norm_num [qDistSq, fbCenter, bboxOf, exPlayer5]
  have hsplit : detectFastMovement exFED5 exPlayer5 1 =
      (if (1 : ℚ) - 0 > 0 ∧
          qDistSq (fbCenter (bboxOf exPlayer5)) ((0 : ℚ), (0 : ℚ)) >
            2500 * ((1 : ℚ) - 0) ^ 2 then
        ((some ⟨1, 1, qDistSq (fbCenter (bboxOf exPlayer5)) ((0 : ℚ), (0 : ℚ)) /
            ((1 : ℚ) - 0) ^ 2⟩,
          ⟨[(1, (((0 : ℚ), (0 : ℚ)), (0 : ℚ)))],
            [("fast_movement_" ++ toString (1 : Int), (1 : ℚ))], none, none⟩) :
          Option FastEvent × FEDState)
      else
        (none,
          ⟨odSet [(1, (((0 : ℚ), (0 : ℚ)), (0 : ℚ)))] 1
              (fbCenter (bboxOf exPlayer5), 1),
            [], none, none⟩)) := rfl
  refine ⟨?_, ?_, ?_⟩
  · rw [hsplit, if_pos hcond]
    rfl
  · rw [hsplit, if_pos hcond]
    rfl
  · intro h
    have h2 := congrArg Prod.snd h
    norm_num at h2

/-- Claim C6, counterexample: a frame with one well-formed and one
malformed (missing `center`) detection makes `update` raise
(`KeyError`, modelled `.error`) instead of skipping the malformed
detection and processing the rest. -/
theorem C6_counterexample :
    ctUpdate exParams exState1 [exRaw (10, 0), exBadRaw] = .error () :=
  rfl

/-- Claim C6, amended: a malformed detection (missing `center`) in a
nonempty frame aborts the whole `update` call with an error; no
detection of the frame is processed and no state is returned. -/
theorem C6_malformed_aborts (p : CTParams) (s : TrackState)
    (dets : List RawDetection) (hbad : ∃ d ∈ dets, d.center = none) :
    ctUpdate p s dets = .error () := by
  obtain ⟨d, hd, hc⟩ := hbad
  have hmap : extractAll dets = .error () := by
    induction dets with
    | nil => cases hd
    | cons a l ih =>
      rcases List.mem_cons.mp hd with h | h
      · subst h
        simp only [extractAll, extractDetection, hc]
      · cases ha : extractDetection a with
        | error e =>
          cases e
          simp only [extractAll, ha]
        | ok x =>
          simp only [extractAll, ha, ih h]
  cases dets with
  | nil => cases hd
  | cons a l =>
    simp only [ctUpdate, List.isEmpty_cons, Bool.false_eq_true, if_false,
      hmap]

/-- Claim C6 amended, witness: the two-detection frame with a malformed
second detection instantiates the amended theorem. -/
theorem C6_malformed_aborts_witness :
    ctUpdate exParams exState1 [exRaw (10, 0), exBadRaw] = .error () :=
  C6_malformed_aborts exParams exState1 [exRaw (10, 0), exBadRaw]
    ⟨exBadRaw, by simp, rfl⟩

/-- Claim C9: a player whose `track_id` is absent or 0 (Python-falsy)
makes `detect_fast_movement` return `None` immediately with the
detector state untouched, so id 0 can never produce a `fast_movement`
event. -/
theorem C9_falsy_id_no_event (s : FEDState) (player : FBObject) (t : ℚ)
    (h : player.track_id = none ∨ player.track_id = some 0) :
    detectFastMovement s player t = (none, s) := by
  rcases h with h | h <;> simp [detectFastMovement, h]

/-- Claim C9, witness: the id-0 player at a state holding history. -/
theorem C9_falsy_id_no_event_witness :
    detectFastMovement exFED5 exPlayer0 1 = (none, exFED5) :=
  C9_falsy_id_no_event exFED5 exPlayer0 1 (Or.inr rfl)

/-- Claim C10: when the player closest to the ball is within 50 px but
differs from the recorded possessor and less than 2 s have elapsed
since the last recorded change, `detect_possession_change` returns
`None` and leaves the whole state (both `current_possession` and
`last_possession_change`) unchanged. -/
theorem C10_suppressed_change_drops (s : FEDState) (ball : FBObject)
    (players : List FBObject) (t : ℚ) (cp : FBObject) (dSq : ℚ)
    (cur : Option Int)
    (hc : closestPlayer (fbCenter (bboxOf ball)) players = some (cp, dSq))
    (hd : dSq < 2500)
    (hp : s.current_possession = some cur)
    (_hne : cur ≠ cp.track_id)
    (ht : t - s.last_possession_change.getD 0 < 2) :
    detectPossessionChange s ball players t = (none, s) := by
  have hno : ¬(cur ≠ cp.track_id ∧ t - s.last_possession_change.getD 0 > 2) := by
    rintro ⟨-, h2⟩
    linarith
  unfold detectPossessionChange
  rw [hc]
  dsimp only
  rw [if_pos hd, hp]
  dsimp only
  rw [if_neg hno]

/-- Claim C10, witness: possessor 7, challenger 3 at 10 px, 1 s after
the last change. -/
theorem C10_suppressed_change_drops_witness :
    detectPossessionChange exFED10 exBall10 [exPlayer10] 11 = (none, exFED10) :=
  C10_suppressed_change_drops exFED10 exBall10 [exPlayer10] 11 exPlayer10 100
    (some 7)
    (by norm_num [closestPlayer, fbCenter, bboxOf, exBall10, exPlayer10, qDistSq])
    (by norm_num) rfl (by decide) (by norm_num [exFED10])

/-- Claim C4, amended: `detect_goal` emits a goal event exactly when
the top-left corner `(bbox[0], bbox[1])` of the ball's bounding box —
not the centroid — lies inside a configured goal area whose per-area
cooldown is open. -/
theorem C4_goal_tests_corner (s : FEDState) (ball : FBObject) (t : ℚ) :
    ((detectGoal s ball t).1).isSome =
      ((inGoalArea ⟨0, 200, 100, 400⟩ (goalTestPoint ball).1
          (goalTestPoint ball).2 &&
        goalCooldownOpen s (goalKey "left_goal") t) ||
      (inGoalArea ⟨540, 200, 640, 400⟩ (goalTestPoint ball).1
          (goalTestPoint ball).2 &&
        goalCooldownOpen s (goalKey "right_goal") t)) := by
  cases hb1 : inGoalArea ⟨0, 200, 100, 400⟩ (goalTestPoint ball).1
      (goalTestPoint ball).2 <;>
    cases hb2 : goalCooldownOpen s (goalKey "left_goal") t <;>
      cases hb3 : inGoalArea ⟨540, 200, 640, 400⟩ (goalTestPoint ball).1
          (goalTestPoint ball).2 <;>
        cases hb4 : goalCooldownOpen s (goalKey "right_goal") t <;>
          simp_all [detectGoal, goalAreas, detectGoalLoop, goalTestPoint]

/-- Claim C5, amended: for a truthy `track_id`, `detect_fast_movement`
writes the current `(center, time)` into `previous_positions` exactly
on the calls that do not emit an event; on an event-emitting call the
function returns early and the per-id entry keeps its old value. -/
theorem C5_history_updated_unless_event (s : FEDState) (player : FBObject)
    (t : ℚ) (pid : Int) (hid : player.track_id = some pid) (hnz : pid ≠ 0) :
    ((detectFastMovement s player t).1 = none →
      odGet (detectFastMovement s player t).2.previous_positions pid =
        some (fbCenter (bboxOf player), t)) ∧
    (((detectFastMovement s player t).1).isSome = true →
      (detectFastMovement s player t).2.previous_positions =
        s.previous_positions) := by
  unfold detectFastMovement
  rw [hid]
  dsimp only
  rw [if_neg hnz]
  cases hprev : odGet s.previous_positions pid with
  | none =>
    dsimp only
    constructor
    · intro _
      exact odGet_odSet_self _ _ _
    · intro h
      simp at h
  | some pr =>
    obtain ⟨prevPos, prevTime⟩ := pr
    dsimp only
    by_cases hcond : (t - prevTime > 0 ∧
        qDistSq (fbCenter (bboxOf player)) prevPos > 2500 * (t - prevTime) ^ 2)
    · rw [if_pos hcond]
      by_cases hcool :
          fastCooldownOpen s ("fast_movement_" ++ toString pid) t = true
      · rw [if_pos hcool]
        constructor
        · intro h
          cases h
        · intro _
          rfl
      · rw [if_neg hcool]
        constructor
        · intro _
          exact odGet_odSet_self _ _ _
        · intro h
          simp at h
    · rw [if_neg hcond]
      constructor
      · intro _
        exact odGet_odSet_self _ _ _
      · intro h
        simp at h

/-- Claim C5 amended, witness: a fresh detector records the first
observation of player 1 (no event fires on a first sighting). -/
theorem C5_history_updated_unless_event_witness :
    ((detectFastMovement fedInit exPlayer5 1).1 = none →
      odGet (detectFastMovement fedInit exPlayer5 1).2.previous_positions 1 =
        some (fbCenter (bboxOf exPlayer5), 1)) ∧
    (((detectFastMovement fedInit exPlayer5 1).1).isSome = true →
      (detectFastMovement fedInit exPlayer5 1).2.previous_positions =
        fedInit.previous_positions) :=
  C5_history_updated_unless_event fedInit exPlayer5 1 1 rfl (by decide)

/-- In the second pass of the cooldown scenario: a ball corner inside
the left goal with a closed left cooldown gets suppressed — the left
area falls through and the corner cannot be in the (disjoint) right
area, so the loop emits nothing and returns the state unchanged. -/
theorem goalLoop_suppressed_left (s1 : FEDState) (bx byy : Int) (t1 t2 : ℚ)
    (hcool : odGet s1.event_cooldown (goalKey "left_goal") = some t1)
    (hin : inGoalArea ⟨0, 200, 100, 400⟩ bx byy = true)
    (ht : t2 - t1 < 5) :
    detectGoalLoop s1 bx byy t2 goalAreas = (none, s1) := by
  have hin2 : (0 : Int) ≤ bx ∧ bx ≤ 100 ∧ 200 ≤ byy ∧ byy ≤ 400 := by
    simpa [inGoalArea, and_assoc] using hin
  have hdec : decide (t2 - t1 > 5) = false := by
    simp only [decide_eq_false_iff_not]
    intro h
    linarith
  have hR : inGoalArea ⟨540, 200, 640, 400⟩ bx byy = false := by
    rw [Bool.eq_false_iff]
    intro hcontra
    simp only [inGoalArea, Bool.and_eq_true, decide_eq_true_eq] at hcontra
    omega
  simp [goalAreas, detectGoalLoop, hin, goalCooldownOpen, hcool, hdec, hR]

/-- Symmetric suppression lemma for the right goal area. -/
theorem goalLoop_suppressed_right (s1 : FEDState) (bx byy : Int) (t1 t2 : ℚ)
    (hcool : odGet s1.event_cooldown (goalKey "right_goal") = some t1)
    (hin : inGoalArea ⟨540, 200, 640, 400⟩ bx byy = true)
    (ht : t2 - t1 < 5) :
    detectGoalLoop s1 bx byy t2 goalAreas = (none, s1) := by
  have hin2 : (540 : Int) ≤ bx ∧ bx ≤ 640 ∧ 200 ≤ byy ∧ byy ≤ 400 := by
    simpa [inGoalArea, and_assoc] using hin
  have hdec : decide (t2 - t1 > 5) = false := by
    simp only [decide_eq_false_iff_not]
    intro h
    linarith
  have hL : inGoalArea ⟨0, 200, 100, 400⟩ bx byy = false := by
    rw [Bool.eq_false_iff]
    intro hcontra
    simp only [inGoalArea, Bool.and_eq_true, decide_eq_true_eq] at hcontra
    omega
  simp [goalAreas, detectGoalLoop, hL, hin, goalCooldownOpen, hcool, hdec]

/-- Claim C8: after a call emits a goal event, a second call whose ball
qualifies (by the code's corner test) for the same goal area less than
5 seconds later emits nothing and leaves the detector state unchanged —
so exactly one goal event arises for that area and none is emitted
within 5 seconds of the previous one for the area. -/
theorem C8_goal_cooldown_idempotent (s : FEDState) (b1 b2 : FBObject)
    (t1 t2 : ℚ) (e1 : GoalEvent)
    (h1 : (detectGoal s b1 t1).1 = some e1)
    (hq : ∃ a, (e1.location, a) ∈ goalAreas ∧
      inGoalArea a (goalTestPoint b2).1 (goalTestPoint b2).2 = true)
    (ht : t2 - t1 < 5) :
    detectGoal (detectGoal s b1 t1).2 b2 t2 = (none, (detectGoal s b1 t1).2) := by
  obtain ⟨a, ha, hin⟩ := hq
  simp only [goalTestPoint] at hin
  simp only [goalAreas, List.mem_cons, List.not_mem_nil, or_false] at ha
  have hga : goalAreas =
      [("left_goal", ⟨0, 200, 100, 400⟩),
       ("right_goal", ⟨540, 200, 640, 400⟩)] := rfl
  by_cases hL1 : inGoalArea ⟨0, 200, 100, 400⟩ ((bboxOf b1).getD 0 0)
      ((bboxOf b1).getD 1 0) = true
  · by_cases hoL : goalCooldownOpen s (goalKey "left_goal") t1 = true
    · -- first call emits for the left goal
      have hfirst : detectGoal s b1 t1 =
          (some ⟨t1, "left_goal", 4 / 5, "Potential goal detected at " ++ "left_goal"⟩,
            { s with event_cooldown :=
                odSet s.event_cooldown (goalKey "left_goal") t1 }) := by
        unfold detectGoal
        rw [hga, detectGoalLoop, if_pos hL1, if_pos hoL]
      have he1 : e1 = ⟨t1, "left_goal", 4 / 5,
          "Potential goal detected at " ++ "left_goal"⟩ := by
        rw [hfirst] at h1
        exact (Option.some.inj h1).symm
      subst he1
      rcases ha with h | h
      · injection h with h1loc h2a
        subst h2a
        rw [hfirst]
        unfold detectGoal
        exact goalLoop_suppressed_left _ _ _ t1 t2
          (odGet_odSet_self _ _ _) hin ht
      · injection h with h1loc h2a
        exact absurd (show ("left_goal" : String) = "right_goal" from h1loc)
          (by decide)
    · by_cases hR1 : inGoalArea ⟨540, 200, 640, 400⟩ ((bboxOf b1).getD 0 0)
          ((bboxOf b1).getD 1 0) = true
      · by_cases hoR : goalCooldownOpen s (goalKey "right_goal") t1 = true
        · -- first call falls through left cooldown, emits for the right goal
          have hfirst : detectGoal s b1 t1 =
              (some ⟨t1, "right_goal", 4 / 5,
                  "Potential goal detected at " ++ "right_goal"⟩,
                { s with event_cooldown :=
                    odSet s.event_cooldown (goalKey "right_goal") t1 }) := by
            unfold detectGoal
            rw [hga, detectGoalLoop, if_pos hL1, if_neg hoL, detectGoalLoop,
              if_pos hR1, if_pos hoR]
          have he1 : e1 = ⟨t1, "right_goal", 4 / 5,
              "Potential goal detected at " ++ "right_goal"⟩ := by
            rw [hfirst] at h1
            exact (Option.some.inj h1).symm
          subst he1
          rcases ha with h | h
          · injection h with h1loc h2a
            exact absurd (show ("right_goal" : String) = "left_goal" from h1loc)
              (by decide)
          · injection h with h1loc h2a
            subst h2a
            rw [hfirst]
            unfold detectGoal
            exact goalLoop_suppressed_right _ _ _ t1 t2
              (odGet_odSet_self _ _ _) hin ht
        · exfalso
          have hnone : detectGoal s b1 t1 = (none, s) := by
            unfold detectGoal
            rw [hga, detectGoalLoop, if_pos hL1, if_neg hoL, detectGoalLoop,
              if_pos hR1, if_neg hoR, detectGoalLoop]
          rw [hnone] at h1
          simp at h1
      · exfalso
        have hnone : detectGoal s b1 t1 = (none, s) := by
          unfold detectGoal
          rw [hga, detectGoalLoop, if_pos hL1, if_neg hoL, detectGoalLoop,
            if_neg hR1, detectGoalLoop]
        rw [hnone] at h1
        simp at h1
  · by_cases hR1 : inGoalArea ⟨540, 200, 640, 400⟩ ((bboxOf b1).getD 0 0)
        ((bboxOf b1).getD 1 0) = true
    · by_cases hoR : goalCooldownOpen s (goalKey "right_goal") t1 = true
      · have hfirst : detectGoal s b1 t1 =
            (some ⟨t1, "right_goal", 4 / 5,
                "Potential goal detected at " ++ "right_goal"⟩,
              { s with event_cooldown :=
                  odSet s.event_cooldown (goalKey "right_goal") t1 }) := by
          unfold detectGoal
          rw [hga, detectGoalLoop, if_neg hL1, detectGoalLoop, if_pos hR1,
            if_pos hoR]
        have he1 : e1 = ⟨t1, "right_goal", 4 / 5,
            "Potential goal detected at " ++ "right_goal"⟩ := by
          rw [hfirst] at h1
          exact (Option.some.inj h1).symm
        subst he1
        rcases ha with h | h
        · injection h with h1loc h2a
          exact absurd (show ("right_goal" : String) = "left_goal" from h1loc)
            (by decide)
        · injection h with h1loc h2a
          subst h2a
          rw [hfirst]
          unfold detectGoal
          exact goalLoop_suppressed_right _ _ _ t1 t2
            (odGet_odSet_self _ _ _) hin ht
      · exfalso
        have hnone : detectGoal s b1 t1 = (none, s) := by
          unfold detectGoal
          rw [hga, detectGoalLoop, if_neg hL1, detectGoalLoop, if_pos hR1,
            if_neg hoR, detectGoalLoop]
        rw [hnone] at h1
        simp at h1
    · exfalso
      have hnone : detectGoal s b1 t1 = (none, s) := by
        unfold detectGoal
        rw [hga, detectGoalLoop, if_neg hL1, detectGoalLoop, if_neg hR1,
          detectGoalLoop]
      rw [hnone] at h1
      simp at h1

/-- Claim C8, witness: a corner-qualifying ball at time 0 scores, and
the same ball 3 seconds later is suppressed with the state unchanged. -/
theorem C8_goal_cooldown_idempotent_witness :
    detectGoal (detectGoal fedInit exBallCornerIn 0).2 exBallCornerIn 3 =
      (none, (detectGoal fedInit exBallCornerIn 0).2) :=
  C8_goal_cooldown_idempotent fedInit exBallCornerIn exBallCornerIn 0 3
    ⟨0, "left_goal", 4 / 5, "Potential goal detected at " ++ "left_goal"⟩
    rfl
    ⟨⟨0, 200, 100, 400⟩, by simp [goalAreas], rfl⟩
    (by norm_num)

/-- The neighbor loops of `find_peak_moments` succeed exactly when the
segment's score strictly exceeds every available score among the two
segments before and the two after. -/
theorem isLocalPeak_iff (segs : List Segment) (i : Nat) (hi : i < segs.length) :
    isLocalPeak segs i = true ↔
      (∀ j, j < i → i ≤ j + 2 →
        (segs.getD j default).score < (segs.getD i default).score) ∧
      (∀ j, i < j → j < i + 3 → j < segs.length →
        (segs.getD j default).score < (segs.getD i default).score) := by
  unfold isLocalPeak
  rw [Bool.and_eq_true, List.all_eq_true, List.all_eq_true]
  constructor
  · rintro ⟨hpre, hpost⟩
    constructor
    · intro j hj hij
      have hjm : j ∈ List.range' (i - 2) (i - (i - 2)) := by
        rw [List.mem_range'_1]
        omega
      simpa using hpre j hjm
    · intro j hij hj3 hjlen
      have hjm : j ∈ List.range' (i + 1) (min segs.length (i + 3) - (i + 1)) := by
        rw [List.mem_range'_1]
        omega
      simpa using hpost j hjm
  · rintro ⟨hpre, hpost⟩
    constructor
    · intro j hjm
      rw [List.mem_range'_1] at hjm
      simpa using hpre j (by omega) (by omega)
    · intro j hjm
      rw [List.mem_range'_1] at hjm
      simpa using hpost j (by omega) (by omega) (by omega)

/-- Claim C7: a highlight is produced from segment `i` exactly when its
score exceeds 0.5 and strictly exceeds the up-to-2 preceding and
up-to-2 following segments, its window is the span from the segment
before the peak to the segment after it (clamped at the ends), and the
candidate is kept only when that span reaches `min_duration` — below
the threshold it is dropped entirely, never truncated. -/
theorem C7_find_peak_moments_spec (segs : List Segment) (md : ℚ)
    (h : Highlight) :
    h ∈ findPeakMoments segs md ↔
      ∃ i, i < segs.length ∧
        (segs.getD i default).score > 1 / 2 ∧
        (∀ j, j < i → i ≤ j + 2 →
          (segs.getD j default).score < (segs.getD i default).score) ∧
        (∀ j, i < j → j < i + 3 → j < segs.length →
          (segs.getD j default).score < (segs.getD i default).score) ∧
        md ≤ h.end_time - h.start_time ∧
        h = ⟨(segs.getD (i - 1) default).start_time,
          (segs.getD (min (segs.length - 1) (i + 1)) default).end_time,
          (segs.getD i default).score, segs.getD i default⟩ := by
  unfold findPeakMoments
  rw [List.mem_filterMap]
  constructor
  · rintro ⟨i, hmem, hsome⟩
    rw [List.mem_range] at hmem
    split_ifs at hsome with h05 hpk hdur
    · have heq := (Option.some.inj hsome).symm
      obtain ⟨hpre, hpost⟩ := (isLocalPeak_iff segs i hmem).mp hpk
      refine ⟨i, hmem, h05, hpre, hpost, ?_, heq⟩
      rw [heq]
      exact hdur
  · rintro ⟨i, hi, h05, hpre, hpost, hdur, heq⟩
    refine ⟨i, List.mem_range.mpr hi, ?_⟩
    rw [if_pos h05, if_pos ((isLocalPeak_iff segs i hi).mpr ⟨hpre, hpost⟩),
      if_pos (by rw [heq] at hdur; exact hdur)]
    exact congrArg some heq.symm

/-! Support lemmas for the matching-phase proofs. -/

theorem natContains_iff (l : List Nat) (x : Nat) :
    l.contains x = true ↔ x ∈ l := by
  induction l with
  | nil => simp
  | cons a rest ih =>
    simp only [List.contains_cons, Bool.or_eq_true, beq_iff_eq, List.mem_cons]
    rw [ih]

theorem odGet_mem {κ α : Type} [DecidableEq κ] (l : List (κ × α)) (k : κ)
    (v : α) (h : odGet l k = some v) : (k, v) ∈ l := by
  induction l with
  | nil => cases h
  | cons e rest ih =>
    obtain ⟨a, b⟩ := e
    rw [odGet_cons] at h
    by_cases ha : a = k
    · subst ha
      rw [if_pos rfl] at h
      obtain rfl := Option.some.inj h
      exact List.mem_cons_self _ _
    · rw [if_neg ha] at h
      exact List.mem_cons_of_mem _ (ih h)

theorem getD_eq_get (l : List Nat) (i : Nat) (h : i < l.length) :
    l.getD i 0 = l.get ⟨i, h⟩ := by
  rw [List.getD_eq_getElem?_getD, List.getElem?_eq_getElem h]
  rfl

theorem getD_mem (l : List Nat) (i : Nat) (h : i < l.length) :
    l.getD i 0 ∈ l := by
  rw [getD_eq_get l i h]
  exact List.get_mem l i h

theorem getElem?_eq_some_getD (l : List Nat) (i : Nat) (h : i < l.length) :
    l[i]? = some (l.getD i 0) := by
  rw [List.getElem?_eq_getElem h, getD_eq_get l i h]
  rfl

theorem nodup_getD_ne (K : List Nat) (hnd : K.Nodup) {i j : Nat}
    (hi : i < K.length) (hj : j < K.length) (hne : i ≠ j) :
    K.getD i 0 ≠ K.getD j 0 := by
  intro hc
  apply hne
  rw [getD_eq_get K i hi, getD_eq_get K j hj] at hc
  have := List.nodup_iff_injective_get.mp hnd hc
  exact congrArg Fin.val this

theorem mem_insertByKey (key : Nat → Int) (x y : Nat) (l : List Nat) :
    y ∈ insertByKey key x l ↔ y = x ∨ y ∈ l := by
  induction l with
  | nil => simp [insertByKey]
  | cons a rest ih =>
    unfold insertByKey
    by_cases h : key a < key x
    · rw [if_pos h]
      simp only [List.mem_cons, ih]
      tauto
    · rw [if_neg h]
      simp only [List.mem_cons]

theorem mem_sortByKey (key : Nat → Int) (l : List Nat) (y : Nat) :
    y ∈ sortByKey key l ↔ y ∈ l := by
  induction l with
  | nil => simp [sortByKey]
  | cons a rest ih =>
    unfold sortByKey
    rw [mem_insertByKey]
    simp only [List.mem_cons, ih]

/-- Invariants of the greedy matching loop: the object and disappeared
key sets and the id counter are untouched, used rows only grow and come
from the processed pairs, and the `disappeared` entry of any id whose
row was never newly consumed is untouched. -/
theorem greedyFold_spec (p : CTParams) (oc ic : List Pt)
    (dets : List Detection) (pairs : List (Nat × Nat)) (acc : GreedyRes)
    (hrange : ∀ rc ∈ pairs, rc.1 < (odKeys acc.state.objects).length)
    (hsync : ∀ k ∈ odKeys acc.state.objects,
      odHas acc.state.disappeared k = true) :
    odKeys (greedyFold p oc ic dets pairs acc).state.objects =
      odKeys acc.state.objects ∧
    odKeys (greedyFold p oc ic dets pairs acc).state.disappeared =
      odKeys acc.state.disappeared ∧
    (greedyFold p oc ic dets pairs acc).state.next_object_id =
      acc.state.next_object_id ∧
    (∀ r ∈ acc.usedRows, r ∈ (greedyFold p oc ic dets pairs acc).usedRows) ∧
    (∀ r ∈ (greedyFold p oc ic dets pairs acc).usedRows,
      r ∈ acc.usedRows ∨ r ∈ pairs.map Prod.fst) ∧
    (∀ q, (∀ r, r ∈ (greedyFold p oc ic dets pairs acc).usedRows →
        r ∉ acc.usedRows → (odKeys acc.state.objects).getD r 0 ≠ q) →
      odGet (greedyFold p oc ic dets pairs acc).state.disappeared q =
        odGet acc.state.disappeared q) := by
  induction pairs generalizing acc with
  | nil =>
    exact ⟨rfl, rfl, rfl, fun r hr => hr, fun r hr => Or.inl hr,
      fun q _ => rfl⟩
  | cons rc rest ih =>
    have hfold : greedyFold p oc ic dets (rc :: rest) acc =
        greedyFold p oc ic dets rest (greedyStep p oc ic dets acc rc) := by
      unfold greedyFold
      rw [List.foldl_cons]
    by_cases hskip :
        (acc.usedRows.contains rc.1 || acc.usedCols.contains rc.2) = true
    · -- pair skipped: already-consumed row or column
      have hstep : greedyStep p oc ic dets acc rc = acc := by
        unfold greedyStep
        rw [if_pos hskip]
      rw [hfold, hstep]
      obtain ⟨k1, k2, k3, k4, k5, k6⟩ :=
        ih acc (fun x hx => hrange x (List.mem_cons_of_mem _ hx)) hsync
      refine ⟨k1, k2, k3, k4, fun r hr => ?_, k6⟩
      rcases k5 r hr with h | h
      · exact Or.inl h
      · exact Or.inr (List.mem_cons_of_mem _ h)
    · by_cases hdist : distSq (oc.getD rc.1 (0, 0)) (ic.getD rc.2 (0, 0)) >
          (p.max_distance : Int) ^ 2
      · -- pair skipped: distance gate
        have hstep : greedyStep p oc ic dets acc rc = acc := by
          unfold greedyStep
          rw [if_neg hskip, if_pos hdist]
        rw [hfold, hstep]
        obtain ⟨k1, k2, k3, k4, k5, k6⟩ :=
          ih acc (fun x hx => hrange x (List.mem_cons_of_mem _ hx)) hsync
        refine ⟨k1, k2, k3, k4, fun r hr => ?_, k6⟩
        rcases k5 r hr with h | h
        · exact Or.inl h
        · exact Or.inr (List.mem_cons_of_mem _ h)
      · -- pair accepted: the object at row rc.1 is matched to column rc.2
        have hrow : rc.1 < (odKeys acc.state.objects).length :=
          hrange rc (List.mem_cons_self _ _)
        have hidmem : (odKeys acc.state.objects).getD rc.1 0 ∈
            odKeys acc.state.objects :=
          getD_mem _ _ hrow
        have hhasO : odHas acc.state.objects
            ((odKeys acc.state.objects).getD rc.1 0) = true :=
          (odHas_iff_mem_keys _ _).mpr hidmem
        have hhasD : odHas acc.state.disappeared
            ((odKeys acc.state.objects).getD rc.1 0) = true :=
          hsync _ hidmem
        have hstep : greedyStep p oc ic dets acc rc =
            { usedRows := acc.usedRows ++ [rc.1]
              usedCols := acc.usedCols ++ [rc.2]
              state := { acc.state with
                objects := odSet acc.state.objects
                  ((odKeys acc.state.objects).getD rc.1 0)
                  ⟨ic.getD rc.2 (0, 0), (dets.getD rc.2 default).bbox,
                    (dets.getD rc.2 default).class_name,
                    (dets.getD rc.2 default).confidence,
                    (dets.getD rc.2 default).area⟩
                disappeared := odSet acc.state.disappeared
                  ((odKeys acc.state.objects).getD rc.1 0) 0
                trails := odSet acc.state.trails
                  ((odKeys acc.state.objects).getD rc.1 0)
                  (dequeAppend p.trail_length
                    ((odGet acc.state.trails
                      ((odKeys acc.state.objects).getD rc.1 0)).getD [])
                    (ic.getD rc.2 (0, 0))) } } := by
          unfold greedyStep
          rw [if_neg hskip, if_neg hdist]
        have hkeysO : odKeys (greedyStep p oc ic dets acc rc).state.objects =
            odKeys acc.state.objects := by
          rw [hstep]
          exact odKeys_odSet_of_has _ _ _ hhasO
        have hkeysD :
            odKeys (greedyStep p oc ic dets acc rc).state.disappeared =
              odKeys acc.state.disappeared := by
          rw [hstep]
          exact odKeys_odSet_of_has _ _ _ hhasD
        have hnext :
            (greedyStep p oc ic dets acc rc).state.next_object_id =
              acc.state.next_object_id := by
          rw [hstep]
        have hrange2 : ∀ x ∈ rest,
            x.1 < (odKeys (greedyStep p oc ic dets acc rc).state.objects).length := by
          intro x hx
          rw [hkeysO]
          exact hrange x (List.mem_cons_of_mem _ hx)
        have hsync2 : ∀ k ∈ odKeys (greedyStep p oc ic dets acc rc).state.objects,
            odHas (greedyStep p oc ic dets acc rc).state.disappeared k = true := by
          intro k hk
          rw [hkeysO] at hk
          rw [odHas_iff_mem_keys, hkeysD]
          exact (odHas_iff_mem_keys _ _).mp (hsync k hk)
        obtain ⟨k1, k2, k3, k4, k5, k6⟩ :=
          ih (greedyStep p oc ic dets acc rc) hrange2 hsync2
        have hused : (greedyStep p oc ic dets acc rc).usedRows =
            acc.usedRows ++ [rc.1] := by
          rw [hstep]
        have hnotused : rc.1 ∉ acc.usedRows := by
          intro hmem
          apply hskip
          rw [Bool.or_eq_true]
          exact Or.inl ((natContains_iff _ _).mpr hmem)
        rw [hfold]
        refine ⟨by rw [k1, hkeysO], by rw [k2, hkeysD], by rw [k3, hnext],
          ?_, ?_, ?_⟩
        · intro r hr
          apply k4
          rw [hused]
          exact List.mem_append_left _ hr
        · intro r hr
          rcases k5 r hr with h | h
          · rw [hused] at h
            rcases List.mem_append.mp h with h2 | h2
            · exact Or.inl h2
            · rw [List.mem_singleton] at h2
              subst h2
              exact Or.inr (List.mem_cons_self _ _)
          · exact Or.inr (List.mem_cons_of_mem _ h)
        · intro q hq
          have hq1 : (odKeys acc.state.objects).getD rc.1 0 ≠ q := by
            apply hq rc.1 ?_ hnotused
            apply k4
            rw [hused]
            exact List.mem_append_right _ (List.mem_singleton.mpr rfl)
          have hstepD :
              odGet (greedyStep p oc ic dets acc rc).state.disappeared q =
                odGet acc.state.disappeared q := by
            rw [hstep]
            exact odGet_odSet_ne _ _ _ _ (fun hc => hq1 hc.symm)
          rw [← hstepD]
          apply k6
          intro r hr hr2
          rw [hkeysO]
          apply hq r hr
          intro hmem
          apply hr2
          rw [hused]
          exact List.mem_append_left _ hmem

/-- The unmatched-object pass when no count is at the deregistration
threshold: it succeeds, touches neither `objects` nor `trails` nor the
id counter, increments exactly the listed rows' entries, and leaves
every other id's entry alone. -/
theorem agePass_no_dereg (p : CTParams) (rows : List Nat) (st : TrackState)
    (hrows : rows.Nodup)
    (hnd : (odKeys st.objects).Nodup)
    (hlt : ∀ r ∈ rows, r < (odKeys st.objects).length)
    (hval : ∀ r ∈ rows, ∃ v,
      odGet st.disappeared ((odKeys st.objects).getD r 0) = some v ∧
      v < p.max_disappeared) :
    ∃ t, agePass p rows st = .ok t ∧
      t.objects = st.objects ∧
      t.next_object_id = st.next_object_id ∧
      t.trails = st.trails ∧
      (∀ r ∈ rows, odGet t.disappeared ((odKeys st.objects).getD r 0) =
        (odGet st.disappeared ((odKeys st.objects).getD r 0)).map (· + 1)) ∧
      (∀ q, (∀ r ∈ rows, (odKeys st.objects).getD r 0 ≠ q) →
        odGet t.disappeared q = odGet st.disappeared q) := by
  induction rows generalizing st with
  | nil =>
    exact ⟨st, rfl, rfl, rfl, rfl, fun r hr => absurd hr (List.not_mem_nil r),
      fun q _ => rfl⟩
  | cons row rest ih =>
    obtain ⟨v, hv, hvlt⟩ := hval row (List.mem_cons_self _ _)
    have hrowlt := hlt row (List.mem_cons_self _ _)
    have hkey : (odKeys st.objects)[row]? =
        some ((odKeys st.objects).getD row 0) :=
      getElem?_eq_some_getD _ _ hrowlt
    have hd : (odGet st.disappeared ((odKeys st.objects).getD row 0)).getD 0 + 1 =
        v + 1 := by
      rw [hv]
      rfl
    have hnodereg : ¬(v + 1 > p.max_disappeared) := by omega
    have hstep : agePass p (row :: rest) st = agePass p rest
        { st with disappeared := (odSet st.disappeared
            ((odKeys st.objects).getD row 0) (v + 1)) } := by
      conv_lhs => rw [agePass]
      rw [hkey]
      dsimp only
      rw [hd, if_neg hnodereg]
    have hrowne : ∀ r ∈ rest,
        (odKeys st.objects).getD r 0 ≠ (odKeys st.objects).getD row 0 := by
      intro r hr
      exact nodup_getD_ne _ hnd (hlt r (List.mem_cons_of_mem _ hr)) hrowlt
        (fun hc => (List.nodup_cons.mp hrows).1 (hc ▸ hr))
    obtain ⟨t, ht, hobj, hnext, htr, hrec, hpres⟩ :=
      ih { st with disappeared := (odSet st.disappeared
            ((odKeys st.objects).getD row 0) (v + 1)) }
        (List.nodup_cons.mp hrows).2 hnd
        (fun r hr => hlt r (List.mem_cons_of_mem _ hr))
        (fun r hr => by
          obtain ⟨v2, hv2, hv2lt⟩ := hval r (List.mem_cons_of_mem _ hr)
          refine ⟨v2, ?_, hv2lt⟩
          dsimp only
          rw [odGet_odSet_ne _ _ _ _ (hrowne r hr)]
          exact hv2)
    refine ⟨t, ?_, hobj, hnext, htr, ?_, ?_⟩
    · rw [hstep]
      exact ht
    · intro r hr
      rcases List.mem_cons.mp hr with h | h
      · subst h
        rw [hpres ((odKeys st.objects).getD r 0)
            (fun r2 hr2 hc => (hrowne r2 hr2) hc)]
        dsimp only
        rw [odGet_odSet_self, hv]
        rfl
      · rw [hrec r h]
        dsimp only
        rw [odGet_odSet_ne _ _ _ _ (hrowne r h)]
    · intro q hq
      rw [hpres q (fun r hr => hq r (List.mem_cons_of_mem _ hr))]
      dsimp only
      rw [odGet_odSet_ne _ _ _ _
        (fun hc => hq row (List.mem_cons_self _ _) hc.symm)]

/-- `greedyResult` instantiation of the fold invariants: keys and id
counter untouched, used rows in range, and `disappeared` untouched for
ids whose rows stayed unmatched. -/
theorem greedyResult_spec (p : CTParams) (s : TrackState)
    (dets : List Detection)
    (hsync : ∀ k ∈ odKeys s.objects, odHas s.disappeared k = true) :
    odKeys (greedyResult p s dets).state.objects = odKeys s.objects ∧
    odKeys (greedyResult p s dets).state.disappeared =
      odKeys s.disappeared ∧
    (greedyResult p s dets).state.next_object_id = s.next_object_id ∧
    (∀ r ∈ (greedyResult p s dets).usedRows, r < s.objects.length) ∧
    (∀ q, (∀ r, r ∈ (greedyResult p s dets).usedRows →
        (odKeys s.objects).getD r 0 ≠ q) →
      odGet (greedyResult p s dets).state.disappeared q =
        odGet s.disappeared q) := by
  have hG : greedyResult p s dets =
      greedyFold p ((s.objects.map Prod.snd).map TrackedObject.centroid)
        (dets.map Detection.center) dets
        ((argsortRows ((s.objects.map Prod.snd).map TrackedObject.centroid)
            (dets.map Detection.center)).zip
          ((argsortRows ((s.objects.map Prod.snd).map TrackedObject.centroid)
              (dets.map Detection.center)).map
            (rowArgmin ((s.objects.map Prod.snd).map TrackedObject.centroid)
              (dets.map Detection.center))))
        ⟨[], [], s⟩ := rfl
  have hrowsmem : ∀ r ∈ argsortRows
      ((s.objects.map Prod.snd).map TrackedObject.centroid)
      (dets.map Detection.center), r < (odKeys s.objects).length := by
    intro r hr
    unfold argsortRows at hr
    rw [mem_sortByKey, List.mem_range] at hr
    simpa [odKeys] using hr
  have hzipfst : ((argsortRows ((s.objects.map Prod.snd).map TrackedObject.centroid)
        (dets.map Detection.center)).zip
      ((argsortRows ((s.objects.map Prod.snd).map TrackedObject.centroid)
          (dets.map Detection.center)).map
        (rowArgmin ((s.objects.map Prod.snd).map TrackedObject.centroid)
          (dets.map Detection.center)))).map Prod.fst =
      argsortRows ((s.objects.map Prod.snd).map TrackedObject.centroid)
        (dets.map Detection.center) :=
    List.map_fst_zip _ _ (by rw [List.length_map])
  have hrange : ∀ rc ∈ (argsortRows
        ((s.objects.map Prod.snd).map TrackedObject.centroid)
        (dets.map Detection.center)).zip
      ((argsortRows ((s.objects.map Prod.snd).map TrackedObject.centroid)
          (dets.map Detection.center)).map
        (rowArgmin ((s.objects.map Prod.snd).map TrackedObject.centroid)
          (dets.map Detection.center))),
      rc.1 < (odKeys (⟨[], [], s⟩ : GreedyRes).state.objects).length := by
    intro rc hrc
    apply hrowsmem
    rw [← hzipfst]
    exact List.mem_map_of_mem Prod.fst hrc
  obtain ⟨k1, k2, k3, k4, k5, k6⟩ :=
    greedyFold_spec p ((s.objects.map Prod.snd).map TrackedObject.centroid)
      (dets.map Detection.center) dets
      ((argsortRows ((s.objects.map Prod.snd).map TrackedObject.centroid)
          (dets.map Detection.center)).zip
        ((argsortRows ((s.objects.map Prod.snd).map TrackedObject.centroid)
            (dets.map Detection.center)).map
          (rowArgmin ((s.objects.map Prod.snd).map TrackedObject.centroid)
            (dets.map Detection.center))))
      ⟨[], [], s⟩ hrange hsync
  rw [← hG] at k1 k2 k3 k5 k6
  refine ⟨k1, k2, k3, ?_, ?_⟩
  · intro r hr
    rcases k5 r hr with h | h
    · cases h
    · rw [hzipfst] at h
      have := hrowsmem r h
      simpa [odKeys] using this
  · intro q hq
    apply k6
    intro r hr _
    exact hq r hr

/-- Claim C1, amended: on a nonempty frame against a nonempty object
set, unmatched existing objects have their `disappeared` count
incremented by exactly 1 only when the objects are at least as numerous
as the detections (`D.shape[0] >= D.shape[1]`); the statement also
assumes every count is below `max_disappeared`, since a mid-pass
deregistration re-indexes the live key list and can age the wrong
object or raise `IndexError`. Under these conditions no object is
deregistered and every unmatched object ages by exactly 1. When
detections outnumber objects the aging pass is skipped entirely (see
the counterexample). -/
theorem C1_unmatched_objects_age (p : CTParams) (s : TrackState)
    (raw : List RawDetection) (dets : List Detection)
    (hex : extractAll raw = .ok dets)
    (hdets : dets ≠ [])
    (hobj : s.objects ≠ [])
    (hshape : dets.length ≤ s.objects.length)
    (hnd : (odKeys s.objects).Nodup)
    (hsync : ∀ k ∈ odKeys s.objects, odHas s.disappeared k = true)
    (hbelow : ∀ e ∈ s.disappeared, e.2 < p.max_disappeared) :
    ∃ t, ctUpdate p s raw = .ok t ∧
      odKeys t.objects = odKeys s.objects ∧
      ∀ r ∈ unmatchedRows p s dets,
        odGet t.disappeared ((odKeys s.objects).getD r 0) =
          (odGet s.disappeared ((odKeys s.objects).getD r 0)).map (· + 1) := by
  obtain ⟨g1, g2, g3, g4, g5⟩ := greedyResult_spec p s dets hsync
  have hkeyslen : (odKeys s.objects).length = s.objects.length := by
    simp [odKeys]
  have hUR : ∀ r ∈ unmatchedRows p s dets, r < s.objects.length ∧
      r ∉ (greedyResult p s dets).usedRows := by
    intro r hr
    unfold unmatchedRows at hr
    rw [List.mem_filter] at hr
    refine ⟨List.mem_range.mp hr.1, ?_⟩
    intro hmem
    have hc := (natContains_iff _ _).mpr hmem
    have h2 := hr.2
    rw [Bool.not_eq_true'] at h2
    rw [hc] at h2
    cases h2
  have hURnd : (unmatchedRows p s dets).Nodup := by
    unfold unmatchedRows
    exact (List.nodup_range _).filter _
  -- for each unmatched row, the greedy phase left its id's entry alone
  have hglast : ∀ r ∈ unmatchedRows p s dets,
      odGet (greedyResult p s dets).state.disappeared
          ((odKeys s.objects).getD r 0) =
        odGet s.disappeared ((odKeys s.objects).getD r 0) := by
    intro r hr
    apply g5
    intro r2 hr2
    apply nodup_getD_ne _ hnd
    · rw [hkeyslen]
      exact g4 r2 hr2
    · rw [hkeyslen]
      exact (hUR r hr).1
    · intro hc
      exact (hUR r hr).2 (hc ▸ hr2)
  -- preconditions of the aging pass on the greedy state
  have hval : ∀ r ∈ unmatchedRows p s dets, ∃ v,
      odGet (greedyResult p s dets).state.disappeared
          ((odKeys (greedyResult p s dets).state.objects).getD r 0) = some v ∧
      v < p.max_disappeared := by
    intro r hr
    rw [g1, hglast r hr]
    have hmem : (odKeys s.objects).getD r 0 ∈ odKeys s.objects := by
      apply getD_mem
      rw [hkeyslen]
      exact (hUR r hr).1
    have hhas := hsync _ hmem
    unfold odHas at hhas
    cases hv : odGet s.disappeared ((odKeys s.objects).getD r 0) with
    | none => rw [hv] at hhas; cases hhas
    | some v =>
      exact ⟨v, rfl, hbelow _ (odGet_mem _ _ _ hv)⟩
  obtain ⟨t, ht, hto, htn, htt, hrec, hpres⟩ :=
    agePass_no_dereg p (unmatchedRows p s dets) (greedyResult p s dets).state
      hURnd (by rw [g1]; exact hnd)
      (by
        intro r hr
        rw [g1, hkeyslen]
        exact (hUR r hr).1)
      hval
  have hraw : raw.isEmpty = false := by
    cases raw with
    | nil =>
      rw [show extractAll [] = .ok [] from rfl] at hex
      obtain rfl := Except.ok.inj hex
      exact absurd rfl hdets
    | cons a l => rfl
  have hobjne : s.objects.isEmpty = false := by
    cases h2 : s.objects with
    | nil => exact absurd h2 hobj
    | cons a l => rfl
  have hupdate : ctUpdate p s raw =
      agePass p (unmatchedRows p s dets) (greedyResult p s dets).state := by
    unfold ctUpdate
    rw [if_neg (show ¬(raw.isEmpty = true) by rw [hraw]; exact Bool.false_ne_true)]
    rw [hex]
    dsimp only
    rw [if_neg (show ¬(s.objects.isEmpty = true) by
      rw [hobjne]; exact Bool.false_ne_true)]
    rw [if_pos hshape]
  refine ⟨t, ?_, ?_, ?_⟩
  · rw [hupdate]
    exact ht
  · rw [hto, g1]
  · intro r hr
    have hthis := hrec r hr
    rw [g1] at hthis
    rw [hthis, hglast r hr]

/-- Claim C1 amended, witness: two objects, one detection matching the
first; the unmatched second object ages from 0 to 1 and nothing is
deregistered. -/
theorem C1_unmatched_objects_age_witness :
    ∃ t, ctUpdate exParams exState2 [exRaw (0, 0)] = .ok t ∧
      odKeys t.objects = odKeys exState2.objects ∧
      ∀ r ∈ unmatchedRows exParams exState2 [exDet (0, 0)],
        odGet t.disappeared ((odKeys exState2.objects).getD r 0) =
          (odGet exState2.disappeared
            ((odKeys exState2.objects).getD r 0)).map (· + 1) :=
  C1_unmatched_objects_age exParams exState2 [exRaw (0, 0)] [exDet (0, 0)]
    rfl (List.cons_ne_nil _ _) (List.cons_ne_nil _ _) (by decide)
    (by decide) (by decide) (by decide)

/-- Writing to a key that is absent appends the entry. -/
theorem odSet_fresh {κ α : Type} [DecidableEq κ] (l : List (κ × α)) (k : κ)
    (v : α) (h : odHas l k = false) : odSet l k v = l ++ [(k, v)] := by
  unfold odSet
  rw [if_neg (by rw [h]; exact Bool.false_ne_true)]

/-- An id counter strictly above every key is not a key. -/
theorem fresh_not_has {κ : Type} [DecidableEq κ] {α : Type}
    (l : List (κ × α)) (k : κ)
    (h : ∀ k2 ∈ odKeys l, k2 ≠ k) : odHas l k = false := by
  rw [Bool.eq_false_iff]
  intro hc
  exact h k ((odHas_iff_mem_keys _ _).mp hc) rfl

/-- The registration pass leaves every entry under a pre-existing
(below-counter) id untouched. -/
theorem registerPass_preserves (p : CTParams) (dets : List Detection)
    (cols : List Nat) (st : TrackState)
    (hfreshO : ∀ k ∈ odKeys st.objects, k < st.next_object_id)
    (hfreshD : ∀ k ∈ odKeys st.disappeared, k < st.next_object_id)
    (q : Nat) (hq : q < st.next_object_id) :
    odGet (registerPass p dets cols st).objects q = odGet st.objects q ∧
    odGet (registerPass p dets cols st).disappeared q =
      odGet st.disappeared q := by
  induction cols generalizing st with
  | nil => exact ⟨rfl, rfl⟩
  | cons c rest ih =>
    have hstep : registerPass p dets (c :: rest) st = registerPass p dets rest
        (register p st (dets.getD c default).center (dets.getD c default)) := by
      unfold registerPass
      rw [List.foldl_cons]
    have hhasO : odHas st.objects st.next_object_id = false :=
      fresh_not_has _ _ (fun k2 hk2 => Nat.ne_of_lt (hfreshO k2 hk2))
    have hhasD : odHas st.disappeared st.next_object_id = false :=
      fresh_not_has _ _ (fun k2 hk2 => Nat.ne_of_lt (hfreshD k2 hk2))
    have hfreshO2 : ∀ k ∈ odKeys
        (register p st (dets.getD c default).center (dets.getD c default)).objects,
        k < (register p st (dets.getD c default).center
          (dets.getD c default)).next_object_id := by
      intro k hk
      unfold register at hk ⊢
      dsimp only at hk ⊢
      rw [odSet_fresh _ _ _ hhasO] at hk
      unfold odKeys at hk
      rw [List.map_append, List.mem_append] at hk
      rcases hk with h | h
      · exact Nat.lt_succ_of_lt (hfreshO k h)
      · simp only [List.map_cons, List.map_nil, List.mem_singleton] at h
        subst h
        exact Nat.lt_succ_self _
    have hfreshD2 : ∀ k ∈ odKeys
        (register p st (dets.getD c default).center (dets.getD c default)).disappeared,
        k < (register p st (dets.getD c default).center
          (dets.getD c default)).next_object_id := by
      intro k hk
      unfold register at hk ⊢
      dsimp only at hk ⊢
      rw [odSet_fresh _ _ _ hhasD] at hk
      unfold odKeys at hk
      rw [List.map_append, List.mem_append] at hk
      rcases hk with h | h
      · exact Nat.lt_succ_of_lt (hfreshD k h)
      · simp only [List.map_cons, List.map_nil, List.mem_singleton] at h
        subst h
        exact Nat.lt_succ_self _
    obtain ⟨ho, hd⟩ := ih
      (register p st (dets.getD c default).center (dets.getD c default))
      hfreshO2 hfreshD2 (Nat.lt_succ_of_lt hq)
    rw [hstep]
    constructor
    · rw [ho]
      unfold register
      dsimp only
      rw [odSet_fresh _ _ _ hhasO,
        odGet_append_ne _ _ _ _ (Nat.ne_of_lt hq)]
    · rw [hd]
      unfold register
      dsimp only
      rw [odSet_fresh _ _ _ hhasD,
        odGet_append_ne _ _ _ _ (Nat.ne_of_lt hq)]

/-- Every listed column is registered by the registration pass: a fresh
id at least the current counter, carrying the detection's data, with
`disappeared = 0`. -/
theorem registerPass_registers (p : CTParams) (dets : List Detection)
    (cols : List Nat) (st : TrackState)
    (hfreshO : ∀ k ∈ odKeys st.objects, k < st.next_object_id)
    (hfreshD : ∀ k ∈ odKeys st.disappeared, k < st.next_object_id) :
    ∀ c ∈ cols, ∃ id, st.next_object_id ≤ id ∧
      odGet (registerPass p dets cols st).objects id =
        some ⟨(dets.getD c default).center, (dets.getD c default).bbox,
          (dets.getD c default).class_name, (dets.getD c default).confidence,
          (dets.getD c default).area⟩ ∧
      odGet (registerPass p dets cols st).disappeared id = some 0 := by
  induction cols generalizing st with
  | nil =>
    intro c hc
    cases hc
  | cons c0 rest ih =>
    have hstep : registerPass p dets (c0 :: rest) st = registerPass p dets rest
        (register p st (dets.getD c0 default).center (dets.getD c0 default)) := by
      unfold registerPass
      rw [List.foldl_cons]
    have hhasO : odHas st.objects st.next_object_id = false :=
      fresh_not_has _ _ (fun k2 hk2 => Nat.ne_of_lt (hfreshO k2 hk2))
    have hhasD : odHas st.disappeared st.next_object_id = false :=
      fresh_not_has _ _ (fun k2 hk2 => Nat.ne_of_lt (hfreshD k2 hk2))
    have hfreshO2 : ∀ k ∈ odKeys
        (register p st (dets.getD c0 default).center (dets.getD c0 default)).objects,
        k < (register p st (dets.getD c0 default).center
          (dets.getD c0 default)).next_object_id := by
      intro k hk
      unfold register at hk ⊢
      dsimp only at hk ⊢
      rw [odSet_fresh _ _ _ hhasO] at hk
      unfold odKeys at hk
      rw [List.map_append, List.mem_append] at hk
      rcases hk with h | h
      · exact Nat.lt_succ_of_lt (hfreshO k h)
      · simp only [List.map_cons, List.map_nil, List.mem_singleton] at h
        subst h
        exact Nat.lt_succ_self _
    have hfreshD2 : ∀ k ∈ odKeys
        (register p st (dets.getD c0 default).center (dets.getD c0 default)).disappeared,
        k < (register p st (dets.getD c0 default).center
          (dets.getD c0 default)).next_object_id := by
      intro k hk
      unfold register at hk ⊢
      dsimp only at hk ⊢
      rw [odSet_fresh _ _ _ hhasD] at hk
      unfold odKeys at hk
      rw [List.map_append, List.mem_append] at hk
      rcases hk with h | h
      · exact Nat.lt_succ_of_lt (hfreshD k h)
      · simp only [List.map_cons, List.map_nil, List.mem_singleton] at h
        subst h
        exact Nat.lt_succ_self _
    intro c hc
    rcases List.mem_cons.mp hc with h | h
    · subst h
      obtain ⟨ho, hd⟩ := registerPass_preserves p dets rest
        (register p st (dets.getD c default).center (dets.getD c default))
        hfreshO2 hfreshD2 st.next_object_id (Nat.lt_succ_self _)
      refine ⟨st.next_object_id, Nat.le_refl _, ?_, ?_⟩
      · rw [hstep, ho]
        unfold register
        dsimp only
        exact odGet_odSet_self _ _ _
      · rw [hstep, hd]
        unfold register
        dsimp only
        exact odGet_odSet_self _ _ _
    · obtain ⟨id, hle, ho, hd⟩ := ih
        (register p st (dets.getD c0 default).center (dets.getD c0 default))
        hfreshO2 hfreshD2 c h
      refine ⟨id, Nat.le_trans (Nat.le_succ _) hle, ?_, ?_⟩
      · rw [hstep]
        exact ho
      · rw [hstep]
        exact hd

/-- Claim C2, amended: input detections left unmatched by the greedy
assignment (including those rejected by the distance gate) are
registered as fresh objects with `disappeared = 0` only when the
detections strictly outnumber the existing objects
(`D.shape[0] < D.shape[1]`); when objects are at least as numerous, the
registration pass never runs and unmatched detections are dropped (see
the counterexample). -/
theorem C2_unmatched_detections_register (p : CTParams) (s : TrackState)
    (raw : List RawDetection) (dets : List Detection)
    (hex : extractAll raw = .ok dets)
    (hobj : s.objects ≠ [])
    (hshape : s.objects.length < dets.length)
    (hsync : ∀ k ∈ odKeys s.objects, odHas s.disappeared k = true)
    (hfreshO : ∀ k ∈ odKeys s.objects, k < s.next_object_id)
    (hfreshD : ∀ k ∈ odKeys s.disappeared, k < s.next_object_id) :
    ∃ t, ctUpdate p s raw = .ok t ∧
      ∀ c ∈ unmatchedCols p s dets, ∃ id,
        s.next_object_id ≤ id ∧ id ∉ odKeys s.objects ∧
        odGet t.objects id =
          some ⟨(dets.getD c default).center, (dets.getD c default).bbox,
            (dets.getD c default).class_name,
            (dets.getD c default).confidence, (dets.getD c default).area⟩ ∧
        odGet t.disappeared id = some 0 := by
  obtain ⟨g1, g2, g3, g4, g5⟩ := greedyResult_spec p s dets hsync
  have hdets : dets ≠ [] := by
    intro hc
    rw [hc] at hshape
    simp at hshape
  have hraw : raw.isEmpty = false := by
    cases raw with
    | nil =>
      rw [show extractAll [] = .ok [] from rfl] at hex
      obtain rfl := Except.ok.inj hex
      exact absurd rfl hdets
    | cons a l => rfl
  have hobjne : s.objects.isEmpty = false := by
    cases h2 : s.objects with
    | nil => exact absurd h2 hobj
    | cons a l => rfl
  have hupdate : ctUpdate p s raw = .ok (registerPass p dets
      (unmatchedCols p s dets) (greedyResult p s dets).state) := by
    unfold ctUpdate
    rw [if_neg (show ¬(raw.isEmpty = true) by
      rw [hraw]; exact Bool.false_ne_true)]
    rw [hex]
    dsimp only
    rw [if_neg (show ¬(s.objects.isEmpty = true) by
      rw [hobjne]; exact Bool.false_ne_true)]
    rw [if_neg (Nat.not_le.mpr hshape)]
  have hfreshO2 : ∀ k ∈ odKeys (greedyResult p s dets).state.objects,
      k < (greedyResult p s dets).state.next_object_id := by
    intro k hk
    rw [g1] at hk
    rw [g3]
    exact hfreshO k hk
  have hfreshD2 : ∀ k ∈ odKeys (greedyResult p s dets).state.disappeared,
      k < (greedyResult p s dets).state.next_object_id := by
    intro k hk
    rw [g2] at hk
    rw [g3]
    exact hfreshD k hk
  refine ⟨registerPass p dets (unmatchedCols p s dets)
    (greedyResult p s dets).state, hupdate, ?_⟩
  intro c hc
  obtain ⟨id, hle, ho, hd⟩ := registerPass_registers p dets
    (unmatchedCols p s dets) (greedyResult p s dets).state
    hfreshO2 hfreshD2 c hc
  rw [g3] at hle
  refine ⟨id, hle, ?_, ho, hd⟩
  intro hmem
  exact absurd (hfreshO id hmem) (Nat.not_lt.mpr hle)

/-- Claim C2 amended, witness: one object and two detections — the far
detection is unmatched and gets registered as a fresh object with a
zero `disappeared` count. -/
theorem C2_unmatched_detections_register_witness :
    ∃ t, ctUpdate exParams exState1 [exRaw (5, 0), exRaw (1000, 0)] = .ok t ∧
      ∀ c ∈ unmatchedCols exParams exState1 [exDet (5, 0), exDet (1000, 0)],
        ∃ id, exState1.next_object_id ≤ id ∧ id ∉ odKeys exState1.objects ∧
        odGet t.objects id =
          some ⟨([exDet (5, 0), exDet (1000, 0)].getD c default).center,
            ([exDet (5, 0), exDet (1000, 0)].getD c default).bbox,
            ([exDet (5, 0), exDet (1000, 0)].getD c default).class_name,
            ([exDet (5, 0), exDet (1000, 0)].getD c default).confidence,
            ([exDet (5, 0), exDet (1000, 0)].getD c default).area⟩ ∧
        odGet t.disappeared id = some 0 :=
  C2_unmatched_detections_register exParams exState1
    [exRaw (5, 0), exRaw (1000, 0)] [exDet (5, 0), exDet (1000, 0)]
    rfl (List.cons_ne_nil _ _) (by decide) (by decide) (by decide) (by decide)

/-- Per-category effect of the `MultiObjectTracker.update` loop: a
category missing from the input map keeps its tracker and count history
untouched, and a present, known category gets exactly one tracker
update and one appended history entry. -/
theorem multiLoop_spec (input : List (String × List RawDetection))
    (mc : MultiState) (tr : List (String × List (Nat × TrackedObject)))
    (total : Nat) (m2 : MultiState)
    (tracked : List (String × List (Nat × TrackedObject))) (tot : Nat)
    (h : multiLoop mc tr total input = .ok (m2, tracked, tot))
    (hnodup : (input.map Prod.fst).Nodup) :
    (∀ c, c ∉ input.map Prod.fst →
      odGet m2.trackers c = odGet mc.trackers c ∧
      odGet m2.object_count_history c = odGet mc.object_count_history c) ∧
    (∀ cd ∈ input, ∀ ts, odGet mc.trackers cd.1 = some ts →
      ∃ ts2, ctUpdate (categoryParams cd.1) ts cd.2 = .ok ts2 ∧
        odGet m2.trackers cd.1 = some ts2 ∧
        odGet m2.object_count_history cd.1 =
          some (histAppend ((odGet mc.object_count_history cd.1).getD [])
            ts2.objects.length)) := by
  induction input generalizing mc tr total with
  | nil =>
    obtain ⟨rfl, -⟩ : mc = m2 ∧ (tr, total) = (tracked, tot) := by
      rw [show multiLoop mc tr total [] = .ok (mc, tr, total) from rfl] at h
      obtain h2 := Except.ok.inj h
      exact ⟨congrArg Prod.fst h2, congrArg Prod.snd h2⟩
    exact ⟨fun c _ => ⟨rfl, rfl⟩, fun cd hcd => absurd hcd (List.not_mem_nil cd)⟩
  | cons cd0 rest ih =>
    rw [List.map_cons, List.nodup_cons] at hnodup
    have hstep : multiLoop mc tr total (cd0 :: rest) =
        (match odGet mc.trackers cd0.1 with
          | none => multiLoop mc tr total rest
          | some ts =>
            match ctUpdate (categoryParams cd0.1) ts cd0.2 with
            | .error e => .error e
            | .ok ts2 =>
              multiLoop
                { mc with
                  trackers := odSet mc.trackers cd0.1 ts2
                  object_count_history := odSet mc.object_count_history cd0.1
                    (histAppend ((odGet mc.object_count_history cd0.1).getD [])
                      ts2.objects.length) }
                (odSet tr cd0.1 ts2.objects)
                (total + ts2.objects.length) rest) := by
      conv_lhs => rw [multiLoop]
    cases hknown : odGet mc.trackers cd0.1 with
    | none =>
      rw [hstep, hknown] at h
      dsimp only at h
      obtain ⟨habs, hpres⟩ := ih mc tr total h hnodup.2
      constructor
      · intro c hc
        rw [List.map_cons, List.mem_cons] at hc
        exact habs c (fun h2 => hc (Or.inr h2))
      · intro cd hcd ts hts
        rcases List.mem_cons.mp hcd with h2 | h2
        · subst h2
          rw [hknown] at hts
          cases hts
        · exact hpres cd h2 ts hts
    | some ts0 =>
      rw [hstep, hknown] at h
      dsimp only at h
      cases hupd : ctUpdate (categoryParams cd0.1) ts0 cd0.2 with
      | error e =>
        rw [hupd] at h
        cases h
      | ok ts2 =>
        rw [hupd] at h
        dsimp only at h
        obtain ⟨habs, hpres⟩ := ih _ _ _ h hnodup.2
        dsimp only at habs hpres
        constructor
        · intro c hc
          rw [List.map_cons, List.mem_cons] at hc
          have hcne : cd0.1 ≠ c := fun h2 => hc (Or.inl h2.symm)
          have hcr : c ∉ rest.map Prod.fst := fun h2 => hc (Or.inr h2)
          obtain ⟨ha1, ha2⟩ := habs c hcr
          rw [ha1, ha2, odGet_odSet_ne _ _ _ _ (fun h2 => hcne h2.symm),
            odGet_odSet_ne _ _ _ _ (fun h2 => hcne h2.symm)]
          exact ⟨rfl, rfl⟩
        · intro cd hcd ts hts
          rcases List.mem_cons.mp hcd with h2 | h2
          · subst h2
            rw [hknown] at hts
            obtain rfl := Option.some.inj hts
            obtain ⟨ha1, ha2⟩ := habs cd.1 hnodup.1
            refine ⟨ts2, hupd, ?_, ?_⟩
            · rw [ha1, odGet_odSet_self]
            · rw [ha2, odGet_odSet_self]
          · have hne : cd.1 ≠ cd0.1 := by
              intro h3
              apply hnodup.1
              rw [← h3]
              exact List.mem_map_of_mem Prod.fst h2
            obtain ⟨ts2b, hu2, ho2, hh2⟩ := hpres cd h2 ts (by
              rw [odGet_odSet_ne _ _ _ _ hne]
              exact hts)
            refine ⟨ts2b, hu2, ho2, ?_⟩
            rw [hh2, odGet_odSet_ne _ _ _ _ hne]

/-- Claim C3, amended: `MultiObjectTracker.update` touches only the
categories present in the input map: a known input category's tracker
is updated and its bounded count history receives exactly one entry,
while a category absent from the input keeps its tracker (so its
objects' `disappeared` counts do not age) and its history untouched. -/
theorem C3_only_input_categories_updated (m : MultiState)
    (input : List (String × List RawDetection)) (m2 : MultiState)
    (tracked : List (String × List (Nat × TrackedObject)))
    (hok : multiUpdate m input = .ok (m2, tracked))
    (hnodup : (input.map Prod.fst).Nodup) :
    (∀ c, c ∉ input.map Prod.fst →
      odGet m2.trackers c = odGet m.trackers c ∧
      odGet m2.object_count_history c = odGet m.object_count_history c) ∧
    (∀ cd ∈ input, ∀ ts, odGet m.trackers cd.1 = some ts →
      ∃ ts2, ctUpdate (categoryParams cd.1) ts cd.2 = .ok ts2 ∧
        odGet m2.trackers cd.1 = some ts2 ∧
        odGet m2.object_count_history cd.1 =
          some (histAppend ((odGet m.object_count_history cd.1).getD [])
            ts2.objects.length)) := by
  unfold multiUpdate at hok
  cases hloop : multiLoop { m with frame_count := m.frame_count + 1 } [] 0 input with
  | error e =>
    rw [hloop] at hok
    cases hok
  | ok res =>
    obtain ⟨mr, trr, totr⟩ := res
    rw [hloop] at hok
    dsimp only at hok
    obtain h2 := Except.ok.inj hok
    have hm2 : m2 = { mr with total_objects_detected := totr } :=
      (congrArg Prod.fst h2).symm
    obtain ⟨habs, hpres⟩ := multiLoop_spec input
      { m with frame_count := m.frame_count + 1 } [] 0 mr trr totr hloop hnodup
    subst hm2
    exact ⟨habs, hpres⟩

/-- Claim C3 amended, witness: an empty input map leaves every
category's tracker and history untouched. -/
theorem C3_only_input_categories_updated_witness :
    (∀ c, c ∉ ([] : List (String × List RawDetection)).map Prod.fst →
      odGet ({ multiInit with frame_count := 1 } : MultiState).trackers c =
        odGet multiInit.trackers c ∧
      odGet ({ multiInit with frame_count := 1 } : MultiState).object_count_history c =
        odGet multiInit.object_count_history c) ∧
    (∀ cd ∈ ([] : List (String × List RawDetection)), ∀ ts,
      odGet multiInit.trackers cd.1 = some ts →
      ∃ ts2, ctUpdate (categoryParams cd.1) ts cd.2 = .ok ts2 ∧
        odGet ({ multiInit with frame_count := 1 } : MultiState).trackers cd.1 =
          some ts2 ∧
        odGet ({ multiInit with frame_count := 1 } :
            MultiState).object_count_history cd.1 =
          some (histAppend
            ((odGet multiInit.object_count_history cd.1).getD [])
            ts2.objects.length)) :=
  C3_only_input_categories_updated multiInit [] { multiInit with frame_count := 1 }
    [] rfl List.nodup_nil

end AICam
